import Mathlib

/-!
A shallow embedding of `src/luriparser.c`, the source of lua-uriparser.

`luriparser.c` is a Lua binding of the C library *uriparser*.  It exports two
functions, `parse` (`parse_lua`) and `parseQuery` (`parse_query_lua`), which call
the library and marshal what it returns into Lua tables.

The embedding follows the C source function by function.

* The Lua state is the Lua stack, a list of values whose head is the top of the
  stack.  Tables are values; the source never holds two references to one table,
  so updating the table in its stack slot is what `lua_rawset` does.  `none` is a
  raised Lua error.
* C memory is a map from addresses to chars, address `0` is `NULL`, and a
  `UriTextRangeA` is a pair of addresses as in the library header.  A `size_t`
  is a natural number below `2 ^ 64`.
* The library functions `uriParseUriExA`, `uriNormalizeSyntaxA` and
  `uriDissectQueryMallocA` and the numeric error codes of `UriBase.h` are not
  part of the repository; they are parameters (`UriLib`, `UriBase`).
-/

namespace LuaUriParser

/-! ## Lua values, tables and the stack -/

/-- The Lua values the binding handles: `nil`, booleans, strings (a list of
chars) and tables.  A table is its list of key/value entries in insertion order.
Numbers, functions and userdata are not modelled; the binding creates none. -/
inductive LuaValue where
  | nil
  | boolean (b : Bool)
  | string (s : List Char)
  | table (t : List (LuaValue × LuaValue))

abbrev LuaTable := List (LuaValue × LuaValue)

/-- The Lua stack, top of the stack first. -/
abbrev LuaState := List LuaValue

/-- Raw equality of two values used as table keys: strings by content, booleans
by value.  Tables are compared by identity in Lua, which a table value does not
carry; two table keys are never identified here (the binding has none). -/
def lua_rawequal : LuaValue → LuaValue → Bool
  | .nil, .nil => true
  | .boolean a, .boolean b => a == b
  | .string a, .string b => a == b
  | _, _ => false

/-- Raw read `t[k]`: the value stored under `k`, `nil` when there is none. -/
def tbl_rawget : LuaTable → LuaValue → LuaValue
  | [], _ => .nil
  | e :: t, k => if lua_rawequal e.1 k then e.2 else tbl_rawget t k

/-- Raw write of a non-nil value: an existing entry for `k` is overwritten in
place, otherwise a new entry is added. -/
def tbl_insert : LuaTable → LuaValue → LuaValue → LuaTable
  | [], k, v => [(k, v)]
  | e :: t, k, v => if lua_rawequal e.1 k then (e.1, v) :: t else e :: tbl_insert t k v

/-- Raw write `t[k] = v`; writing `nil` removes the entry. -/
def tbl_rawset (t : LuaTable) (k v : LuaValue) : LuaTable :=
  match v with
  | .nil => t.filter (fun e => !lua_rawequal e.1 k)
  | _ => tbl_insert t k v

/-- Position, counted from the top of the stack, of the slot an acceptable stack
index denotes: positive indices count from the bottom, negative ones from the
top. -/
def index2pos (L : LuaState) (idx : Int) : Option Nat :=
  if 0 < idx then
    if idx ≤ (L.length : Int) then some (L.length - idx.toNat) else none
  else if idx < 0 then
    if -idx ≤ (L.length : Int) then some ((-idx).toNat - 1) else none
  else none

/-- The value at a stack index; `none` is `LUA_TNONE`. -/
def index2value (L : LuaState) (idx : Int) : Option LuaValue :=
  match index2pos L idx with
  | some p => L.get? p
  | none => none

def lua_gettop (L : LuaState) : Int := (L.length : Int)

/-- Shrinks the stack to `n` slots or fills it with `nil` up to `n` slots. -/
def lua_settop (L : LuaState) (n : Nat) : LuaState :=
  List.replicate (n - L.length) LuaValue.nil ++ L.drop (L.length - n)

def lua_newtable (L : LuaState) : LuaState := LuaValue.table [] :: L

def lua_pushnil (L : LuaState) : LuaState := LuaValue.nil :: L

/-- Pushes a string literal; its length is known statically. -/
def lua_pushliteral (L : LuaState) (s : String) : LuaState := LuaValue.string s.toList :: L

/-- The chars of a zero-terminated C string held in buffer `buf`. -/
def cstr (buf : List Char) : List Char := buf.takeWhile (fun c => c != '\x00')

/-- Pushes a zero-terminated C string; a `NULL` pointer pushes `nil`. -/
def lua_pushstring (L : LuaState) (s : Option (List Char)) : LuaState :=
  match s with
  | none => LuaValue.nil :: L
  | some buf => LuaValue.string (cstr buf) :: L

/-- C memory: the char at each address.  Address `0` is `NULL`. -/
abbrev Mem := Nat → Char

/-- The `n` chars stored from address `p` on. -/
def readBytes (mem : Mem) (p n : Nat) : List Char := (List.range n).map (fun i => mem (p + i))

/-- Pushes the `n` chars at address `p`. -/
def lua_pushlstring (L : LuaState) (mem : Mem) (p n : Nat) : LuaState :=
  LuaValue.string (readBytes mem p n) :: L

/-- The pointer difference `a - b` converted to `size_t`. -/
def ptrdiff_size (a b : Nat) : Nat := (((a : Int) - (b : Int)) % 2 ^ 64).toNat

/-- Does `t[k] = v` where `t` is the table at index `idx`, `v` the value on top
of the stack and `k` the value just below; pops both.  Raises an error when the
slot holds no table or the key is `nil`. -/
def lua_rawset (L : LuaState) (idx : Int) : Option LuaState :=
  match L with
  | v :: k :: rest =>
    match index2pos L idx with
    | some p =>
      match L.get? p, k with
      | some (.table _), .nil => none
      | some (.table t), _ =>
        if 2 ≤ p then some (rest.set (p - 2) (LuaValue.table (tbl_rawset t k v))) else some rest
      | _, _ => none
    | none => none
  | _ => none

/-- The chars of a list of string values, in order; `none` when one of them is
not a string. -/
def concat_values : List LuaValue → Option (List Char)
  | [] => some []
  | .string s :: vs => (concat_values vs).map (fun r => s ++ r)
  | _ :: _ => none

/-- Concatenates the `n` values on top of the stack, pops them and pushes the
result.  With `n = 1` the stack is left as it is, with `n = 0` the empty string
is pushed. -/
def lua_concat (L : LuaState) (n : Int) : Option LuaState :=
  if 2 ≤ n then
    if n ≤ (L.length : Int) then
      (concat_values (L.take n.toNat).reverse).map (fun s => LuaValue.string s :: L.drop n.toNat)
    else none
  else if n = 0 then some (LuaValue.string [] :: L)
  else some L

/-- Checks that the argument at `idx` is a string and returns its chars; any
other modelled value raises an error. -/
def luaL_checklstring (L : LuaState) (idx : Int) : Option (List Char) :=
  match index2value L idx with
  | some (.string s) => some s
  | _ => none

def lua_isnoneornil (L : LuaState) (idx : Int) : Bool :=
  match index2value L idx with
  | none => true
  | some .nil => true
  | _ => false

/-- The check `luaL_checktype( L, idx, LUA_TBOOLEAN )`. -/
def luaL_checktype_boolean (L : LuaState) (idx : Int) : Option Unit :=
  match index2value L idx with
  | some (.boolean _) => some ()
  | _ => none

def lua_toboolean (L : LuaState) (idx : Int) : Bool :=
  match index2value L idx with
  | none => false
  | some .nil => false
  | some (.boolean b) => b
  | _ => true

/-! ## The uriparser library interface -/

/-- A text range of the library: two pointers, `first` being `NULL` for an
absent component. -/
structure UriTextRangeA where
  first : Nat
  afterLast : Nat

/-- One node of the linked list of path segments; the list itself is a `List`. -/
structure UriPathSegmentA where
  text : UriTextRangeA

/-- The parsed URI.  `path` is the linked list that starts at `pathHead` and ends
at `pathTail`.  The field `hostData`, which the binding never reads, is left
out. -/
structure UriUriA where
  scheme : UriTextRangeA
  userInfo : UriTextRangeA
  hostText : UriTextRangeA
  portText : UriTextRangeA
  path : List UriPathSegmentA
  query : UriTextRangeA
  fragment : UriTextRangeA
  absolutePath : Bool
  owner : Bool

/-- One node of the list `uriDissectQueryMallocA` allocates: `key` and `value` are
C strings (the chars of their buffers), `none` being `NULL`. -/
structure UriQueryListA where
  key : Option (List Char)
  value : Option (List Char)

/-- The error codes of the library header `UriBase.h`. -/
structure UriBase where
  URI_SUCCESS : Int
  URI_ERROR_SYNTAX : Int
  URI_ERROR_NULL : Int
  URI_ERROR_MALLOC : Int
  URI_ERROR_OUTPUT_TOO_LARGE : Int
  URI_ERROR_NOT_IMPLEMENTED : Int
  URI_ERROR_RANGE_INVALID : Int
  URI_ERROR_ADDBASE_REL_BASE : Int
  URI_ERROR_REMOVEBASE_REL_BASE : Int
  URI_ERROR_REMOVEBASE_REL_SOURCE : Int

/-- The three library functions the binding calls.  Each takes the chars between
the two pointers it is handed and returns its return code with what it wrote:
the URI and the C memory its ranges point into, or the query list. -/
structure UriLib where
  uriParseUriExA : List Char → Int × UriUriA × Mem
  uriNormalizeSyntaxA : UriUriA → Mem → Int × UriUriA × Mem
  uriDissectQueryMallocA : List Char → Int × List UriQueryListA

/-! ## `luriparser.c` -/

def lstate_str2tbl (L : LuaState) (k v : Option (List Char)) : Option LuaState :=
  lua_rawset (lua_pushstring (lua_pushstring L k) v) (-3)

def lstate_strn2tbl (L : LuaState) (k : Option (List Char)) (mem : Mem) (v n : Nat) :
    Option LuaState :=
  lua_rawset (lua_pushlstring (lua_pushstring L k) mem v n) (-3)

def lstate_pusherr (cs : UriBase) (L : LuaState) (c : Int) : LuaState :=
  if c = cs.URI_ERROR_SYNTAX then
    lua_pushstring L (some "Parsed text violates expected format".toList)
  else if c = cs.URI_ERROR_NULL then
    lua_pushstring L (some "One of the params passed was NULL".toList)
  else if c = cs.URI_ERROR_MALLOC then
    lua_pushstring L (some "Requested memory could not be allocated".toList)
  else if c = cs.URI_ERROR_OUTPUT_TOO_LARGE then
    lua_pushstring L (some "Some output is to large for the receiving buffer".toList)
  else if c = cs.URI_ERROR_NOT_IMPLEMENTED then
    lua_pushstring L (some "The called function is not implemented yet".toList)
  else if c = cs.URI_ERROR_RANGE_INVALID then
    lua_pushstring L (some "The parameters passed contained invalid ranges".toList)
  else if c = cs.URI_ERROR_ADDBASE_REL_BASE ∨ c = cs.URI_ERROR_REMOVEBASE_REL_BASE
      ∨ c = cs.URI_ERROR_REMOVEBASE_REL_SOURCE then
    lua_pushstring L (some "Given base is not absolute".toList)
  else
    lua_pushstring L (some "Unknwn error".toList)

/-- The loop `while( ptr )` of `parse_query`. -/
def parse_query_loop : LuaState → List UriQueryListA → Option LuaState
  | L, [] => some L
  | L, ptr :: next =>
    if ptr.key.isSome then
      match lstate_str2tbl L ptr.key (if ptr.value.isSome then ptr.value else some []) with
      | some L1 => parse_query_loop L1 next
      | none => none
    else parse_query_loop L next

/-- The function `parse_query( L, str, len )`; `str` is the `len` chars at the
pointer. -/
def parse_query (lib : UriLib) (cs : UriBase) (L : LuaState) (str : List Char) :
    Option (Int × LuaState) :=
  let r := lib.uriDissectQueryMallocA str
  if r.1 = cs.URI_SUCCESS then
    match parse_query_loop (lua_newtable L) r.2 with
    | some L1 => some (r.1, L1)
    | none => none
  else some (r.1, L)

/-- The loop `while( seg && seg->text.first != seg->text.afterLast )` of
`parse_lua`. -/
def parse_lua_segloop (mem : Mem) : LuaState → List UriPathSegmentA → LuaState
  | L, [] => L
  | L, seg :: next =>
    if seg.text.first ≠ seg.text.afterLast then
      parse_lua_segloop mem
        (lua_pushlstring (lua_pushliteral L "/") mem seg.text.first
          (ptrdiff_size seg.text.afterLast seg.text.first)) next
    else L

/-- The block `// set path` of `parse_lua`. -/
def parse_lua_path (mem : Mem) (uri : UriUriA) (L : LuaState) : Option LuaState :=
  let L := lua_pushliteral L "path"
  match uri.path.head?, uri.path.getLast? with
  | some pathHead, some pathTail =>
    if pathHead.text.first ≠ 0 then
      let top := lua_gettop L
      let L := parse_lua_segloop mem L uri.path
      let L := if pathTail.text.first = pathTail.text.afterLast then lua_pushliteral L "/" else L
      match lua_concat L (lua_gettop L - top) with
      | some L => lua_rawset L (-3)
      | none => none
    else lua_rawset (lua_pushliteral L "/") (-3)
  | _, _ => lua_rawset (lua_pushliteral L "/") (-3)

/-- The blocks `// set scheme` to `// set fragment` of `parse_lua`. -/
def parse_lua_components (mem : Mem) (uri : UriUriA) (L : LuaState) : Option LuaState := do
  let L ← if uri.scheme.first ≠ 0 then
      lstate_strn2tbl L (some "scheme".toList) mem uri.scheme.first
        (ptrdiff_size uri.scheme.afterLast uri.scheme.first)
    else some L
  let L ← if uri.userInfo.first ≠ 0 then
      lstate_strn2tbl L (some "userinfo".toList) mem uri.userInfo.first
        (ptrdiff_size uri.userInfo.afterLast uri.userInfo.first)
    else some L
  let L ← if uri.hostText.first ≠ 0 then
      lstate_strn2tbl L (some "host".toList) mem uri.hostText.first
        (ptrdiff_size uri.hostText.afterLast uri.hostText.first)
    else some L
  let L ← if uri.portText.first ≠ 0 then
      lstate_strn2tbl L (some "port".toList) mem uri.portText.first
        (ptrdiff_size uri.portText.afterLast uri.portText.first)
    else some L
  if uri.fragment.first ≠ 0 then
    lstate_strn2tbl L (some "fragment".toList) mem uri.fragment.first
      (ptrdiff_size uri.fragment.afterLast uri.fragment.first)
  else some L

/-- The block `// set query` of `parse_lua`.  The result is the value of `rc`
after the block and the stack; a `rc` other than `URI_SUCCESS` is the jump to
`PARSE_FAILURE`, taken after `lua_settop( L, 0 )`. -/
def parse_lua_query (lib : UriLib) (cs : UriBase) (mem : Mem) (uri : UriUriA)
    (parseQry : Bool) (L : LuaState) : Option (Int × LuaState) :=
  if uri.query.first ≠ 0 then
    if !parseQry then
      (lstate_strn2tbl L (some "query".toList) mem uri.query.first
        (ptrdiff_size uri.query.afterLast uri.query.first)).map (fun L1 => (cs.URI_SUCCESS, L1))
    else
      match parse_query lib cs (lua_pushstring L (some "query".toList))
          (readBytes mem uri.query.first (ptrdiff_size uri.query.afterLast uri.query.first)) with
      | some (rc, L1) =>
        if rc = cs.URI_SUCCESS then (lua_rawset L1 (-3)).map (fun L2 => (rc, L2))
        else some (rc, lua_settop L1 0)
      | none => none
  else some (cs.URI_SUCCESS, L)

/-- The label `PARSE_FAILURE` of `parse_lua`: pushes `nil` and the description of
`rc`, returns 2. -/
def PARSE_FAILURE (cs : UriBase) (L : LuaState) (rc : Int) : Option (Nat × LuaState) :=
  some (2, lstate_pusherr cs (lua_pushnil L) rc)

/-- The block `// check arguments` of `parse_lua`: the value of `parseQry`. -/
def parse_lua_flag (L : LuaState) : Option Bool :=
  if !lua_isnoneornil L 2 then
    (luaL_checktype_boolean L 2).map (fun _ => lua_toboolean L 2)
  else some false

/-- The function `parse_lua`: the number of results and the stack on return. -/
def parse_lua (lib : UriLib) (cs : UriBase) (L : LuaState) : Option (Nat × LuaState) :=
  match luaL_checklstring L 1 with
  | none => none
  | some url =>
    match parse_lua_flag L with
    | none => none
    | some parseQry =>
      let p := lib.uriParseUriExA url
      if p.1 = cs.URI_SUCCESS then
        let n := lib.uriNormalizeSyntaxA p.2.1 p.2.2
        if n.1 = cs.URI_SUCCESS then
          match parse_lua_components n.2.2 n.2.1 (lua_newtable L) with
          | none => none
          | some L1 =>
            match parse_lua_query lib cs n.2.2 n.2.1 parseQry L1 with
            | none => none
            | some (rc, L2) =>
              if rc = cs.URI_SUCCESS then
                (parse_lua_path n.2.2 n.2.1 L2).map (fun L3 => (1, L3))
              else PARSE_FAILURE cs L2 rc
        else PARSE_FAILURE cs L n.1
      else PARSE_FAILURE cs L p.1

/-- The function `parse_query_lua`. -/
def parse_query_lua (lib : UriLib) (cs : UriBase) (L : LuaState) : Option (Nat × LuaState) :=
  match luaL_checklstring L 1 with
  | none => none
  | some qry =>
    match parse_query lib cs L qry with
    | none => none
    | some (rc, L1) =>
      if rc = cs.URI_SUCCESS then some (1, L1)
      else some (2, lstate_pusherr cs (lua_pushnil L1) rc)

/-- The values a C function hands back to Lua: the `n` topmost stack slots, the
first result deepest. -/
def results (r : Nat × LuaState) : List LuaValue := (r.2.take r.1).reverse

/-! ## Concrete library answers used to run the binding -/

/-- The values `UriBase.h` of uriparser gives the codes. -/
def uriBase : UriBase where
  URI_SUCCESS := 0
  URI_ERROR_SYNTAX := 1
  URI_ERROR_NULL := 2
  URI_ERROR_MALLOC := 3
  URI_ERROR_OUTPUT_TOO_LARGE := 4
  URI_ERROR_NOT_IMPLEMENTED := 8
  URI_ERROR_RANGE_INVALID := 9
  URI_ERROR_ADDBASE_REL_BASE := 5
  URI_ERROR_REMOVEBASE_REL_BASE := 6
  URI_ERROR_REMOVEBASE_REL_SOURCE := 7

/-- C memory holding the chars `s` from address `base` on, zero elsewhere. -/
def memOf (base : Nat) (s : List Char) : Mem :=
  fun a => if base ≤ a then s.getD (a - base) '\x00' else '\x00'

/-- A library run with fixed answers: parsing returns `rcParse` and `uri`, whose
ranges point into the input held at address `base`; normalising returns
`rcNorm` and changes nothing; dissecting returns `rcQry` and `qry`. -/
def fixedLib (base : Nat) (rcParse : Int) (uri : UriUriA) (rcNorm : Int) (rcQry : Int)
    (qry : List UriQueryListA) : UriLib where
  uriParseUriExA := fun url => (rcParse, uri, memOf base url)
  uriNormalizeSyntaxA := fun u mem => (rcNorm, u, mem)
  uriDissectQueryMallocA := fun _ => (rcQry, qry)

def absentRange : UriTextRangeA := ⟨0, 0⟩

/-! ## Reading a run of the binding -/

/-- The chars of a text range: `afterLast - first` chars from `first` on. -/
def rangeText (mem : Mem) (r : UriTextRangeA) : List Char :=
  readBytes mem r.first (ptrdiff_size r.afterLast r.first)

/-- The field `k` of a result table, `nil` when the table has none. -/
def field (T : LuaTable) (k : String) : LuaValue := tbl_rawget T (LuaValue.string k.toList)

/-- What `uriNormalizeSyntaxA` returns on the URI `uriParseUriExA` wrote for `url`. -/
def normalized (lib : UriLib) (url : List Char) : Int × UriUriA × Mem :=
  lib.uriNormalizeSyntaxA (lib.uriParseUriExA url).2.1 (lib.uriParseUriExA url).2.2

/-- The URI `parse_lua` marshals: the parsed URI after normalisation. -/
def parsedUri (lib : UriLib) (url : List Char) : UriUriA := (normalized lib url).2.1

/-- The C memory the ranges of `parsedUri` point into. -/
def parsedMem (lib : UriLib) (url : List Char) : Mem := (normalized lib url).2.2

/-- The URI `url` parses and normalises successfully. -/
def Parsed (lib : UriLib) (cs : UriBase) (url : List Char) : Prop :=
  (lib.uriParseUriExA url).1 = cs.URI_SUCCESS ∧ (normalized lib url).1 = cs.URI_SUCCESS

/-- The query slice of the parsed URI. -/
def queryText (lib : UriLib) (url : List Char) : List Char :=
  rangeText (parsedMem lib url) (parsedUri lib url).query

/-- The query block of `parse_lua` does not fail: the query is absent, or is not
dissected, or its dissection succeeds. -/
def QueryOk (lib : UriLib) (cs : UriBase) (url : List Char) (parseQry : Bool) : Prop :=
  (parsedUri lib url).query.first = 0 ∨ parseQry = false ∨
    (lib.uriDissectQueryMallocA (queryText lib url)).1 = cs.URI_SUCCESS

/-- A segment the loop of `parse_lua` takes for non-empty. -/
def segNonEmpty (seg : UriPathSegmentA) : Bool := decide (seg.text.first ≠ seg.text.afterLast)

/-- The path string of §`set path` for a segment list whose head has a text: a
slash and the text for each segment of the longest prefix of non-empty segments,
then one more slash when the last segment is empty. -/
def pathShape (mem : Mem) (segs : List UriPathSegmentA) : List Char :=
  ((segs.takeWhile segNonEmpty).map (fun seg => '/' :: rangeText mem seg.text)).flatten ++
    (match segs.getLast? with
     | some pathTail => if pathTail.text.first = pathTail.text.afterLast then ['/'] else []
     | none => [])

/-- The path string `parse_lua` builds: `pathShape` when there is a head segment
and its text is present, a lone slash otherwise. -/
def pathValue (mem : Mem) (segs : List UriPathSegmentA) : List Char :=
  match segs.head? with
  | some pathHead => if pathHead.text.first ≠ 0 then pathShape mem segs else ['/']
  | none => ['/']

/-- The strings the segment loop pushes, deepest first. -/
def segPieces (mem : Mem) : List UriPathSegmentA → List (List Char)
  | [] => []
  | seg :: next =>
    if seg.text.first ≠ seg.text.afterLast then
      ['/'] :: rangeText mem seg.text :: segPieces mem next
    else []

/-- The table after one of the blocks `// set scheme` to `// set fragment`: the
field `k` is written when the range is present. -/
def putRange (mem : Mem) (k : String) (r : UriTextRangeA) (T : LuaTable) : LuaTable :=
  if r.first ≠ 0 then
    tbl_insert T (LuaValue.string k.toList) (LuaValue.string (rangeText mem r))
  else T

/-- The table after the five component blocks. -/
def componentsTable (mem : Mem) (uri : UriUriA) (T : LuaTable) : LuaTable :=
  putRange mem "fragment" uri.fragment (putRange mem "port" uri.portText
    (putRange mem "host" uri.hostText (putRange mem "userinfo" uri.userInfo
      (putRange mem "scheme" uri.scheme T))))

/-- The table the loop of `parse_query` leaves, started from `T`. -/
def queryFold : LuaTable → List UriQueryListA → LuaTable
  | T, [] => T
  | T, ptr :: next =>
    match ptr.key with
    | some k =>
      queryFold (tbl_insert T (LuaValue.string (cstr k))
        (LuaValue.string (cstr (ptr.value.getD [])))) next
    | none => queryFold T next

/-- The table after the block `// set query` when the block does not fail. -/
def queryTable (lib : UriLib) (mem : Mem) (uri : UriUriA) (parseQry : Bool) (T : LuaTable) :
    LuaTable :=
  if uri.query.first ≠ 0 then
    if parseQry then
      tbl_insert T (LuaValue.string "query".toList)
        (LuaValue.table (queryFold [] (lib.uriDissectQueryMallocA (rangeText mem uri.query)).2))
    else tbl_insert T (LuaValue.string "query".toList) (LuaValue.string (rangeText mem uri.query))
  else T

/-- The table a successful `parse_lua` returns. -/
def resultTable (lib : UriLib) (url : List Char) (parseQry : Bool) : LuaTable :=
  tbl_insert
    (queryTable lib (parsedMem lib url) (parsedUri lib url) parseQry
      (componentsTable (parsedMem lib url) (parsedUri lib url) []))
    (LuaValue.string "path".toList)
    (LuaValue.string (pathValue (parsedMem lib url) (parsedUri lib url).path))

/-- The description `lstate_pusherr` pushes for the code `c`. -/
def errText (cs : UriBase) (c : Int) : List Char :=
  if c = cs.URI_ERROR_SYNTAX then "Parsed text violates expected format".toList
  else if c = cs.URI_ERROR_NULL then "One of the params passed was NULL".toList
  else if c = cs.URI_ERROR_MALLOC then "Requested memory could not be allocated".toList
  else if c = cs.URI_ERROR_OUTPUT_TOO_LARGE then
    "Some output is to large for the receiving buffer".toList
  else if c = cs.URI_ERROR_NOT_IMPLEMENTED then "The called function is not implemented yet".toList
  else if c = cs.URI_ERROR_RANGE_INVALID then
    "The parameters passed contained invalid ranges".toList
  else if c = cs.URI_ERROR_ADDBASE_REL_BASE ∨ c = cs.URI_ERROR_REMOVEBASE_REL_BASE
      ∨ c = cs.URI_ERROR_REMOVEBASE_REL_SOURCE then "Given base is not absolute".toList
  else "Unknwn error".toList

/-- The query block of `parse_lua` fails: a present query is dissected and the
dissection returns an error code. -/
def QueryFails (lib : UriLib) (cs : UriBase) (url : List Char) (parseQry : Bool) : Prop :=
  (parsedUri lib url).query.first ≠ 0 ∧ parseQry = true ∧
    (lib.uriDissectQueryMallocA (queryText lib url)).1 ≠ cs.URI_SUCCESS

instance (lib : UriLib) (cs : UriBase) (url : List Char) : Decidable (Parsed lib cs url) :=
  inferInstanceAs (Decidable (_ ∧ _))

instance (lib : UriLib) (cs : UriBase) (url : List Char) (parseQry : Bool) :
    Decidable (QueryOk lib cs url parseQry) :=
  inferInstanceAs (Decidable (_ ∨ _))

instance (lib : UriLib) (cs : UriBase) (url : List Char) (parseQry : Bool) :
    Decidable (QueryFails lib cs url parseQry) :=
  inferInstanceAs (Decidable (_ ∧ _))

/-- Two segment lists with the same segments: as many of them, and segment by
segment the same text, both empty or both not, both absent or both present. -/
def SameSegments (mem mem' : Mem) (segs segs' : List UriPathSegmentA) : Prop :=
  List.Forall₂ (fun s s' =>
    rangeText mem s.text = rangeText mem' s'.text ∧
    (s.text.first = s.text.afterLast ↔ s'.text.first = s'.text.afterLast) ∧
    (s.text.first = 0 ↔ s'.text.first = 0)) segs segs'

/-- A URI of which only the path is given. -/
def pathOnlyUri (segs : List UriPathSegmentA) (absolutePath : Bool) : UriUriA where
  scheme := absentRange
  userInfo := absentRange
  hostText := absentRange
  portText := absentRange
  path := segs
  query := absentRange
  fragment := absentRange
  absolutePath := absolutePath
  owner := false

/-- A URI `http://h...` held at address 100, of which the path, the query and the
fragment are given. -/
def httpUri (segs : List UriPathSegmentA) (query fragment : UriTextRangeA) : UriUriA where
  scheme := ⟨100, 104⟩
  userInfo := absentRange
  hostText := ⟨107, 108⟩
  portText := absentRange
  path := segs
  query := query
  fragment := fragment
  absolutePath := false
  owner := false

/-- The library on `http://h/a`: one segment `a`. -/
def libA : UriLib := fixedLib 100 0 (httpUri [⟨⟨109, 110⟩⟩] absentRange absentRange) 0 0 []

/-- The library on `http://h/a/`: the segment `a` and an empty last segment. -/
def libASlash : UriLib :=
  fixedLib 100 0 (httpUri [⟨⟨109, 110⟩⟩, ⟨⟨111, 111⟩⟩] absentRange absentRange) 0 0 []

/-- The library on `http://h/a//b`: the segments `a`, empty, `b`. -/
def libAEmptyB : UriLib :=
  fixedLib 100 0 (httpUri [⟨⟨109, 110⟩⟩, ⟨⟨111, 111⟩⟩, ⟨⟨112, 113⟩⟩] absentRange absentRange)
    0 0 []

/-- The library on `http://h//a`: an empty segment, then `a`. -/
def libEmptyA : UriLib :=
  fixedLib 100 0 (httpUri [⟨⟨109, 109⟩⟩, ⟨⟨110, 111⟩⟩] absentRange absentRange) 0 0 []

/-- The library on the relative reference `a/b`. -/
def libRelAB : UriLib := fixedLib 100 0 (pathOnlyUri [⟨⟨100, 101⟩⟩, ⟨⟨102, 103⟩⟩] false) 0 0 []

/-- The library on `/a/b`, an absolute path. -/
def libAbsAB : UriLib := fixedLib 100 0 (pathOnlyUri [⟨⟨101, 102⟩⟩, ⟨⟨103, 104⟩⟩] true) 0 0 []

/-- The library on `http://h/a?x=1#f`, query `x=1` and fragment `f`; the query
dissects with return code `rcQry` into the one pair `x = 1`. -/
def libQuery (rcQry : Int) : UriLib :=
  fixedLib 100 0 (httpUri [⟨⟨109, 110⟩⟩] ⟨111, 114⟩ ⟨115, 116⟩) 0 rcQry
    [⟨some "x".toList, some "1".toList⟩]

/-- The library on `http://h/a?#`, whose query and fragment are present and
empty. -/
def libEmptyQuery : UriLib :=
  fixedLib 100 0 (httpUri [⟨⟨109, 110⟩⟩] ⟨111, 111⟩ ⟨112, 112⟩) 0 0 []

/-- The keys of the pairs of a query list that have one, as C strings, in list
order. -/
def queryKeys (qry : List UriQueryListA) : List (List Char) :=
  qry.filterMap (fun ptr => ptr.key.map cstr)

/-- The last pair of a query list whose key is the C string `k`. -/
def lastPair (qry : List UriQueryListA) (k : List Char) : Option UriQueryListA :=
  (qry.filter (fun ptr => decide (ptr.key.map cstr = some k))).getLast?

/-- The library on the query `a=1&a=2`: two pairs with the key `a`. -/
def libDup : UriLib :=
  fixedLib 100 0 (pathOnlyUri [] false) 0 0
    [⟨some "a".toList, some "1".toList⟩, ⟨some "a".toList, some "2".toList⟩]

/-- The library on the query `a=1&b=&c`: `b` has the empty value, `c` has no
value. -/
def libMixed : UriLib :=
  fixedLib 100 0 (pathOnlyUri [] false) 0 0
    [⟨some "a".toList, some "1".toList⟩, ⟨some "b".toList, some []⟩, ⟨some "c".toList, none⟩]

/-- The case labels of the `switch` in `lstate_pusherr`. -/
def UriBase.caseLabels (cs : UriBase) : List Int :=
  [cs.URI_ERROR_SYNTAX, cs.URI_ERROR_NULL, cs.URI_ERROR_MALLOC, cs.URI_ERROR_OUTPUT_TOO_LARGE,
   cs.URI_ERROR_NOT_IMPLEMENTED, cs.URI_ERROR_RANGE_INVALID, cs.URI_ERROR_ADDBASE_REL_BASE,
   cs.URI_ERROR_REMOVEBASE_REL_BASE, cs.URI_ERROR_REMOVEBASE_REL_SOURCE]

/-! ## Tables and the stack -/

theorem rawequal_string_iff (x : LuaValue) (a : List Char) :
    lua_rawequal x (LuaValue.string a) = true ↔ x = LuaValue.string a := by
  cases x <;> simp [lua_rawequal]

theorem tbl_rawget_insert (T : LuaTable) (a b : List Char) (v : LuaValue) :
    tbl_rawget (tbl_insert T (LuaValue.string a) v) (LuaValue.string b)
      = if a = b then v else tbl_rawget T (LuaValue.string b) := by
  induction T with
  | nil => simp [tbl_insert, tbl_rawget, lua_rawequal]
  | cons e T ih =>
    by_cases h : lua_rawequal e.1 (LuaValue.string a) = true
    · have he := (rawequal_string_iff _ _).1 h
      by_cases hab : a = b <;> simp [tbl_insert, tbl_rawget, he, lua_rawequal, hab]
    · by_cases hab : a = b
      · subst hab
        simp [tbl_insert, tbl_rawget, h, ih]
      · simp [tbl_insert, tbl_rawget, h, ih, hab]

theorem lua_rawset_top (v k : LuaValue) (T : LuaTable) (rest : LuaState)
    (hk : k ≠ LuaValue.nil) (hv : v ≠ LuaValue.nil) :
    lua_rawset (v :: k :: LuaValue.table T :: rest) (-3)
      = some (LuaValue.table (tbl_insert T k v) :: rest) := by
  have hp : index2pos (v :: k :: LuaValue.table T :: rest) (-3) = some 2 := by
    simp [index2pos]
    omega
  cases k <;> cases v <;> simp_all [lua_rawset, tbl_rawset]

theorem lstate_strn2tbl_top (T : LuaTable) (rest : LuaState) (k : List Char) (mem : Mem)
    (v n : Nat) :
    lstate_strn2tbl (LuaValue.table T :: rest) (some k) mem v n
      = some (LuaValue.table
          (tbl_insert T (LuaValue.string (cstr k)) (LuaValue.string (readBytes mem v n))) :: rest) := by
  simp [lstate_strn2tbl, lua_pushstring, lua_pushlstring, lua_rawset_top]

theorem lstate_str2tbl_top (T : LuaTable) (rest : LuaState) (k v : List Char) :
    lstate_str2tbl (LuaValue.table T :: rest) (some k) (some v)
      = some (LuaValue.table
          (tbl_insert T (LuaValue.string (cstr k)) (LuaValue.string (cstr v))) :: rest) := by
  simp [lstate_str2tbl, lua_pushstring, lua_rawset_top]

theorem concat_values_strings (vs : List (List Char)) :
    concat_values (vs.map LuaValue.string) = some vs.flatten := by
  induction vs with
  | nil => rfl
  | cons s vs ih => simp [concat_values, ih]

theorem lua_concat_strings (vs : List (List Char)) (L : LuaState) :
    lua_concat ((vs.map LuaValue.string).reverse ++ L) (vs.length : Int)
      = some (LuaValue.string vs.flatten :: L) := by
  match vs with
  | [] => simp [lua_concat]
  | [s] => simp [lua_concat]
  | s1 :: s2 :: vs =>
    have h2 : (2 : Int) ≤ ((s1 :: s2 :: vs).length : Int) := by
      simp only [List.length_cons]
      omega
    have hlen : ((s1 :: s2 :: vs).length : Int)
        ≤ ((((s1 :: s2 :: vs).map LuaValue.string).reverse ++ L).length : Int) := by
      simp only [List.length_append, List.length_reverse, List.length_map]
      omega
    have htake : (((s1 :: s2 :: vs).map LuaValue.string).reverse ++ L).take
        ((s1 :: s2 :: vs).length : Int).toNat = ((s1 :: s2 :: vs).map LuaValue.string).reverse := by
      rw [Int.toNat_ofNat]
      exact List.take_left' (by simp)
    have hdrop : (((s1 :: s2 :: vs).map LuaValue.string).reverse ++ L).drop
        ((s1 :: s2 :: vs).length : Int).toNat = L := by
      rw [Int.toNat_ofNat]
      exact List.drop_left' (by simp)
    unfold lua_concat
    rw [if_pos h2, if_pos hlen, htake, hdrop, List.reverse_reverse, concat_values_strings]
    rfl

theorem segloop_eq (mem : Mem) (segs : List UriPathSegmentA) (L : LuaState) :
    parse_lua_segloop mem L segs = ((segPieces mem segs).map LuaValue.string).reverse ++ L := by
  induction segs generalizing L with
  | nil => simp [parse_lua_segloop, segPieces]
  | cons seg next ih =>
    by_cases h : seg.text.first = seg.text.afterLast
    · simp [parse_lua_segloop, segPieces, h]
    · simp [parse_lua_segloop, segPieces, h, ih, lua_pushlstring, lua_pushliteral, rangeText]

theorem segPieces_flatten (mem : Mem) (segs : List UriPathSegmentA) :
    (segPieces mem segs).flatten
      = ((segs.takeWhile segNonEmpty).map (fun seg => '/' :: rangeText mem seg.text)).flatten := by
  induction segs with
  | nil => simp [segPieces]
  | cons seg next ih =>
    by_cases h : seg.text.first = seg.text.afterLast
    · simp [segPieces, segNonEmpty, h]
    · simp [segPieces, segNonEmpty, h, ih, List.takeWhile_cons]

theorem parse_lua_path_eq (mem : Mem) (uri : UriUriA) (T : LuaTable) (rest : LuaState) :
    parse_lua_path mem uri (LuaValue.table T :: rest)
      = some (LuaValue.table (tbl_insert T (LuaValue.string "path".toList)
          (LuaValue.string (pathValue mem uri.path))) :: rest) := by
  unfold parse_lua_path pathValue
  cases hp : uri.path with
  | nil => simp [lua_pushliteral, lua_rawset_top]
  | cons hd tl =>
    obtain ⟨tail, htail⟩ : ∃ t, (hd :: tl).getLast? = some t :=
      ⟨(hd :: tl).getLast (by simp), List.getLast?_eq_getLast _ (by simp)⟩
    simp only [List.head?_cons, htail]
    by_cases h0 : hd.text.first = 0
    · simp [h0, lua_pushliteral, lua_rawset_top]
    · simp only [ne_eq, h0, not_false_eq_true, if_true, segloop_eq, lua_gettop, lua_pushliteral]
      have hs : "/".toList = ['/'] := rfl
      by_cases ht : tail.text.first = tail.text.afterLast
      · have hc := lua_concat_strings (segPieces mem (hd :: tl) ++ [['/']])
          (LuaValue.string "path".toList :: LuaValue.table T :: rest)
        have hn : ((segPieces mem (hd :: tl) ++ [['/']]).length : Int)
            = ((LuaValue.string "/".toList ::
                ((List.map LuaValue.string (segPieces mem (hd :: tl))).reverse ++
                  LuaValue.string "path".toList :: LuaValue.table T :: rest)).length : Int)
              - ((LuaValue.string "path".toList :: LuaValue.table T :: rest).length : Int) := by
          simp only [List.length_cons, List.length_append, List.length_reverse, List.length_map,
            List.length_nil]
          push_cast
          omega
        have hL : ((segPieces mem (hd :: tl) ++ [['/']]).map LuaValue.string).reverse ++
              (LuaValue.string "path".toList :: LuaValue.table T :: rest)
            = LuaValue.string "/".toList ::
                ((List.map LuaValue.string (segPieces mem (hd :: tl))).reverse ++
                  LuaValue.string "path".toList :: LuaValue.table T :: rest) := by
          simp [hs]
        rw [hn, hL] at hc
        simp only [ht, if_true]
        rw [hc]
        simp [lua_rawset_top, pathShape, htail, ht, segPieces_flatten]
      · have hc := lua_concat_strings (segPieces mem (hd :: tl))
          (LuaValue.string "path".toList :: LuaValue.table T :: rest)
        have hn : ((segPieces mem (hd :: tl)).length : Int)
            = ((((List.map LuaValue.string (segPieces mem (hd :: tl))).reverse ++
                  LuaValue.string "path".toList :: LuaValue.table T :: rest)).length : Int)
              - ((LuaValue.string "path".toList :: LuaValue.table T :: rest).length : Int) := by
          simp only [List.length_cons, List.length_append, List.length_reverse, List.length_map,
            List.length_nil]
          push_cast
          omega
        rw [hn] at hc
        simp only [ht, if_false]
        rw [hc]
        simp [lua_rawset_top, pathShape, htail, ht, segPieces_flatten]

theorem lstate_pusherr_eq (cs : UriBase) (L : LuaState) (c : Int) :
    lstate_pusherr cs L c = LuaValue.string (errText cs c) :: L := by
  unfold lstate_pusherr errText
  split_ifs <;> rfl

theorem lua_settop_zero (L : LuaState) : lua_settop L 0 = [] := by
  simp [lua_settop]

theorem parse_lua_components_eq (mem : Mem) (uri : UriUriA) (T : LuaTable) (rest : LuaState) :
    parse_lua_components mem uri (LuaValue.table T :: rest)
      = some (LuaValue.table (componentsTable mem uri T) :: rest) := by
  unfold parse_lua_components componentsTable putRange rangeText
  by_cases h1 : uri.scheme.first = 0 <;> by_cases h2 : uri.userInfo.first = 0 <;>
    by_cases h3 : uri.hostText.first = 0 <;> by_cases h4 : uri.portText.first = 0 <;>
    by_cases h5 : uri.fragment.first = 0 <;>
    simp [h1, h2, h3, h4, h5, lstate_strn2tbl_top, cstr]

theorem parse_query_loop_eq (qry : List UriQueryListA) (T : LuaTable) (rest : LuaState) :
    parse_query_loop (LuaValue.table T :: rest) qry
      = some (LuaValue.table (queryFold T qry) :: rest) := by
  induction qry generalizing T with
  | nil => rfl
  | cons ptr next ih =>
    obtain ⟨key, value⟩ := ptr
    cases key with
    | none => simp [parse_query_loop, queryFold, ih]
    | some k =>
      cases value with
      | none =>
        have h := lstate_str2tbl_top T rest k []
        simp [parse_query_loop, queryFold, ih, h]
      | some v => simp [parse_query_loop, queryFold, ih, lstate_str2tbl_top]

theorem parse_query_eq (lib : UriLib) (cs : UriBase) (L : LuaState) (str : List Char) :
    parse_query lib cs L str
      = if (lib.uriDissectQueryMallocA str).1 = cs.URI_SUCCESS then
          some (cs.URI_SUCCESS,
            LuaValue.table (queryFold [] (lib.uriDissectQueryMallocA str).2) :: L)
        else some ((lib.uriDissectQueryMallocA str).1, L) := by
  unfold parse_query
  by_cases h : (lib.uriDissectQueryMallocA str).1 = cs.URI_SUCCESS
  · simp [h, lua_newtable, parse_query_loop_eq]
  · simp [h]

theorem parse_lua_query_eq (lib : UriLib) (cs : UriBase) (mem : Mem) (uri : UriUriA)
    (parseQry : Bool) (T : LuaTable) (rest : LuaState) :
    parse_lua_query lib cs mem uri parseQry (LuaValue.table T :: rest)
      = if uri.query.first ≠ 0 ∧ parseQry = true ∧
            (lib.uriDissectQueryMallocA (rangeText mem uri.query)).1 ≠ cs.URI_SUCCESS then
          some ((lib.uriDissectQueryMallocA (rangeText mem uri.query)).1, [])
        else some (cs.URI_SUCCESS,
          LuaValue.table (queryTable lib mem uri parseQry T) :: rest) := by
  unfold parse_lua_query queryTable
  by_cases hq : uri.query.first = 0
  · simp [hq]
  · cases parseQry with
    | false => simp [hq, lstate_strn2tbl_top, cstr, rangeText]
    | true =>
      by_cases hd : (lib.uriDissectQueryMallocA (rangeText mem uri.query)).1 = cs.URI_SUCCESS
      · have hd2 := hd
        unfold rangeText at hd2
        simp [hq, hd, hd2, parse_query_eq, lua_pushstring, cstr, lua_rawset_top, rangeText]
      · have hd2 := hd
        unfold rangeText at hd2
        simp [hq, hd, hd2, parse_query_eq, lua_settop_zero, rangeText]

/-- The whole of `parse_lua` on a stack whose arguments pass the checks. -/
theorem parse_lua_eq (lib : UriLib) (cs : UriBase) (L : LuaState) (url : List Char)
    (parseQry : Bool) (hu : luaL_checklstring L 1 = some url)
    (hf : parse_lua_flag L = some parseQry) :
    parse_lua lib cs L
      = if (lib.uriParseUriExA url).1 ≠ cs.URI_SUCCESS then
          some (2, LuaValue.string (errText cs (lib.uriParseUriExA url).1) :: LuaValue.nil :: L)
        else if (normalized lib url).1 ≠ cs.URI_SUCCESS then
          some (2, LuaValue.string (errText cs (normalized lib url).1) :: LuaValue.nil :: L)
        else if QueryFails lib cs url parseQry then
          some (2, [LuaValue.string
            (errText cs (lib.uriDissectQueryMallocA (queryText lib url)).1), LuaValue.nil])
        else some (1, LuaValue.table (resultTable lib url parseQry) :: L) := by
  unfold parse_lua QueryFails queryText resultTable parsedUri parsedMem normalized
  simp only [hu, hf]
  by_cases h1 : (lib.uriParseUriExA url).1 = cs.URI_SUCCESS
  · by_cases h2 : (lib.uriNormalizeSyntaxA (lib.uriParseUriExA url).2.1
        (lib.uriParseUriExA url).2.2).1 = cs.URI_SUCCESS
    · simp only [h1, h2, if_true, ne_eq, not_true_eq_false, if_false, lua_newtable,
        parse_lua_components_eq, parse_lua_query_eq]
      split_ifs with hq
      · simp [PARSE_FAILURE, lstate_pusherr_eq, lua_pushnil, hq.2.2]
      · simp [parse_lua_path_eq]
    · simp [h1, h2, PARSE_FAILURE, lstate_pusherr_eq, lua_pushnil]
  · simp [h1, PARSE_FAILURE, lstate_pusherr_eq, lua_pushnil]

theorem parse_query_lua_eq (lib : UriLib) (cs : UriBase) (L : LuaState) (qry : List Char)
    (hq : luaL_checklstring L 1 = some qry) :
    parse_query_lua lib cs L
      = if (lib.uriDissectQueryMallocA qry).1 = cs.URI_SUCCESS then
          some (1, LuaValue.table (queryFold [] (lib.uriDissectQueryMallocA qry).2) :: L)
        else some (2, LuaValue.string (errText cs (lib.uriDissectQueryMallocA qry).1)
          :: LuaValue.nil :: L) := by
  unfold parse_query_lua
  simp only [hq, parse_query_eq]
  by_cases h : (lib.uriDissectQueryMallocA qry).1 = cs.URI_SUCCESS
  · simp [h]
  · simp [h, lstate_pusherr_eq, lua_pushnil]

theorem field_insert (T : LuaTable) (a : List Char) (v : LuaValue) (k : String) :
    field (tbl_insert T (LuaValue.string a) v) k = if a = k.toList then v else field T k := by
  unfold field
  exact tbl_rawget_insert T a k.toList v

theorem takeWhile_nonEmpty_segs (pre post : List UriPathSegmentA)
    (hpre : ∀ s ∈ pre, s.text.first ≠ s.text.afterLast)
    (hpost : ∀ e, post.head? = some e → e.text.first = e.text.afterLast) :
    (pre ++ post).takeWhile segNonEmpty = pre := by
  induction pre with
  | nil =>
    cases post with
    | nil => rfl
    | cons e post => simp [List.takeWhile_cons, segNonEmpty, hpost e rfl]
  | cons s pre ih =>
    have hs := hpre s (by simp)
    have ih' := ih (fun x hx => hpre x (by simp [hx]))
    simp [List.takeWhile_cons, segNonEmpty, hs, ih']

theorem sameSegments_body (mem mem' : Mem) (segs segs' : List UriPathSegmentA)
    (h : SameSegments mem mem' segs segs') :
    ((segs.takeWhile segNonEmpty).map (fun seg => '/' :: rangeText mem seg.text)).flatten
      = ((segs'.takeWhile segNonEmpty).map
          (fun seg => '/' :: rangeText mem' seg.text)).flatten := by
  unfold SameSegments at h
  induction h with
  | nil => rfl
  | @cons a b l1 l2 hab _ ih =>
    by_cases hb : b.text.first = b.text.afterLast
    · have ha := hab.2.1.2 hb
      simp [List.takeWhile_cons, segNonEmpty, ha, hb]
    · have ha : ¬ a.text.first = a.text.afterLast := fun hx => hb (hab.2.1.1 hx)
      simp [List.takeWhile_cons, segNonEmpty, ha, hb, hab.1, ih]

theorem sameSegments_tail (mem mem' : Mem) (segs segs' : List UriPathSegmentA)
    (h : SameSegments mem mem' segs segs') :
    (match segs.getLast? with
      | some pathTail => if pathTail.text.first = pathTail.text.afterLast then ['/'] else []
      | none => ([] : List Char))
      = (match segs'.getLast? with
      | some pathTail => if pathTail.text.first = pathTail.text.afterLast then ['/'] else []
      | none => ([] : List Char)) := by
  unfold SameSegments at h
  induction h with
  | nil => rfl
  | @cons a b l1 l2 hab hrest ih =>
    cases hrest with
    | nil =>
      by_cases hb : b.text.first = b.text.afterLast
      · simp [hab.2.1.2 hb, hb]
      · have ha : ¬ a.text.first = a.text.afterLast := fun hx => hb (hab.2.1.1 hx)
        simp [ha, hb]
    | cons hcd hrest2 =>
      simp only [List.getLast?_cons_cons]
      exact ih

theorem pathValue_of_sameSegments (mem mem' : Mem) (segs segs' : List UriPathSegmentA)
    (h : SameSegments mem mem' segs segs') : pathValue mem segs = pathValue mem' segs' := by
  unfold pathValue pathShape
  rw [sameSegments_body mem mem' segs segs' h, sameSegments_tail mem mem' segs segs' h]
  unfold SameSegments at h
  cases h with
  | nil => rfl
  | @cons a b l1 l2 hab _ =>
    by_cases hb : b.text.first = 0
    · simp [hab.2.2.2 hb, hb]
    · have ha : ¬ a.text.first = 0 := fun hx => hb (hab.2.2.1 hx)
      simp [ha, hb]

/-- A successful run of `parse_lua`: the arguments pass the checks, the URI parses
and normalises, and the query block does not fail. -/
theorem parse_lua_success (lib : UriLib) (cs : UriBase) (L : LuaState) (url : List Char)
    (parseQry : Bool) (hu : luaL_checklstring L 1 = some url)
    (hf : parse_lua_flag L = some parseQry) (hp : Parsed lib cs url)
    (hq : QueryOk lib cs url parseQry) :
    parse_lua lib cs L = some (1, LuaValue.table (resultTable lib url parseQry) :: L) := by
  rw [parse_lua_eq lib cs L url parseQry hu hf]
  have hnq : ¬ QueryFails lib cs url parseQry := by
    unfold QueryFails
    unfold QueryOk at hq
    rintro ⟨h1, h2, h3⟩
    rcases hq with h | h | h
    · exact h1 h
    · simp [h2] at h
    · exact h3 h
  simp [hp.1, hp.2, hnq]

theorem field_path_resultTable (lib : UriLib) (url : List Char) (parseQry : Bool) :
    field (resultTable lib url parseQry) "path"
      = LuaValue.string (pathValue (parsedMem lib url) (parsedUri lib url).path) := by
  unfold resultTable
  rw [field_insert]
  simp


theorem pathValue_head_absent (mem : Mem) (segs : List UriPathSegmentA)
    (h : segs = [] ∨ ∃ hd tl, segs = hd :: tl ∧ hd.text.first = 0) :
    pathValue mem segs = ['/'] := by
  rcases h with h | ⟨hd, tl, h, h0⟩
  · simp [pathValue, h]
  · simp [pathValue, h, h0]

theorem pathValue_head_present (mem : Mem) (hd : UriPathSegmentA) (tl : List UriPathSegmentA)
    (h0 : hd.text.first ≠ 0) : pathValue mem (hd :: tl) = pathShape mem (hd :: tl) := by
  simp [pathValue, h0]

theorem pathValue_empty_or_slash (mem : Mem) (segs : List UriPathSegmentA) :
    (pathValue mem segs = [] ∨ (pathValue mem segs).head? = some '/') ∧
    (pathValue mem segs = [] ↔ ∃ hd tl pathTail, segs = hd :: tl ∧ hd.text.first ≠ 0 ∧
      hd.text.first = hd.text.afterLast ∧ (hd :: tl).getLast? = some pathTail ∧
      pathTail.text.first ≠ pathTail.text.afterLast) := by
  cases segs with
  | nil => simp [pathValue]
  | cons hd tl =>
    obtain ⟨tail, htail⟩ : ∃ t, (hd :: tl).getLast? = some t :=
      ⟨(hd :: tl).getLast (by simp), List.getLast?_eq_getLast _ (by simp)⟩
    by_cases h0 : hd.text.first = 0
    · simp [pathValue, h0]
    · by_cases he : hd.text.first = hd.text.afterLast
      · have he' : hd.text.afterLast = hd.text.first := he.symm
        by_cases ht : tail.text.first = tail.text.afterLast
        · have hv : pathValue mem (hd :: tl) = ['/'] := by
            simp [pathValue, pathShape, h0, htail, List.takeWhile_cons, segNonEmpty, he', ht]
          rw [hv]
          refine ⟨Or.inr rfl, ⟨fun h => by simp at h, ?_⟩⟩
          rintro ⟨hd', tl', pt, hc, -, -, hl, hne⟩
          rw [← hc, htail] at hl
          simp only [Option.some.injEq] at hl
          exact absurd (hl ▸ ht) hne
        · have hv : pathValue mem (hd :: tl) = [] := by
            simp [pathValue, pathShape, h0, htail, List.takeWhile_cons, segNonEmpty, he', ht]
          rw [hv]
          exact ⟨Or.inl rfl, ⟨fun _ => ⟨hd, tl, tail, rfl, h0, he, htail, ht⟩, fun _ => rfl⟩⟩
      · simp [pathValue, pathShape, h0, htail, List.takeWhile_cons, segNonEmpty, he]

theorem pathShape_drops_after_empty (mem : Mem) (pre post : List UriPathSegmentA)
    (e : UriPathSegmentA) (hpre : ∀ s ∈ pre, s.text.first ≠ s.text.afterLast)
    (he : e.text.first = e.text.afterLast) :
    pathShape mem (pre ++ e :: post)
      = (pre.map (fun seg => '/' :: rangeText mem seg.text)).flatten ++
        (match (e :: post).getLast? with
         | some pathTail => if pathTail.text.first = pathTail.text.afterLast then ['/'] else []
         | none => []) := by
  unfold pathShape
  rw [takeWhile_nonEmpty_segs pre (e :: post) hpre (by
    intro x hx
    simp only [List.head?_cons, Option.some.injEq] at hx
    rw [← hx]
    exact he)]
  have hl : (pre ++ e :: post).getLast? = (e :: post).getLast? := by
    simp [List.getLast?_append]
    cases h : (e :: post).getLast? with
    | none => simp at h
    | some x => simp
  rw [hl]

/-- C9: the exact shape of the `path` field of every successful `parse`.  With
segment list `S`: when `S` is empty or the text of its head is absent the path is
a lone slash; otherwise it is a slash and the text for each segment of the
longest prefix of non-empty segments, and one more slash when the last segment
is empty (`pathShape`).  So the segments after the first empty one are dropped,
and the path is empty, the one case where it does not start with a slash, exactly
when the head is present and empty and the last segment is not empty. -/
theorem parse_lua_path_exact_shape (lib : UriLib) (cs : UriBase) (L : LuaState)
    (url : List Char) (parseQry : Bool) (hu : luaL_checklstring L 1 = some url)
    (hf : parse_lua_flag L = some parseQry) (hp : Parsed lib cs url)
    (hq : QueryOk lib cs url parseQry) :
    ∃ T p, parse_lua lib cs L = some (1, LuaValue.table T :: L) ∧
      field T "path" = LuaValue.string p ∧
      (((parsedUri lib url).path = [] ∨
          ∃ hd tl, (parsedUri lib url).path = hd :: tl ∧ hd.text.first = 0) → p = ['/']) ∧
      (∀ hd tl, (parsedUri lib url).path = hd :: tl → hd.text.first ≠ 0 →
          p = pathShape (parsedMem lib url) (hd :: tl)) ∧
      (∀ hd pre e post, (parsedUri lib url).path = (hd :: pre) ++ e :: post →
          hd.text.first ≠ 0 → (∀ s ∈ hd :: pre, s.text.first ≠ s.text.afterLast) →
          e.text.first = e.text.afterLast →
          p = ((hd :: pre).map
                (fun seg => '/' :: rangeText (parsedMem lib url) seg.text)).flatten ++
              (match (e :: post).getLast? with
               | some pathTail =>
                 if pathTail.text.first = pathTail.text.afterLast then ['/'] else []
               | none => [])) ∧
      (p = [] ∨ p.head? = some '/') ∧
      (p = [] ↔ ∃ hd tl pathTail, (parsedUri lib url).path = hd :: tl ∧ hd.text.first ≠ 0 ∧
          hd.text.first = hd.text.afterLast ∧ (hd :: tl).getLast? = some pathTail ∧
          pathTail.text.first ≠ pathTail.text.afterLast) := by
  refine ⟨resultTable lib url parseQry, pathValue (parsedMem lib url) (parsedUri lib url).path,
    parse_lua_success lib cs L url parseQry hu hf hp hq, field_path_resultTable lib url parseQry,
    pathValue_head_absent _ _, ?_, ?_, (pathValue_empty_or_slash _ _).1,
    (pathValue_empty_or_slash _ _).2⟩
  · intro hd tl hpath h0
    rw [hpath]
    exact pathValue_head_present _ hd tl h0
  · intro hd pre e post hpath h0 hpre he
    rw [hpath]
    have h := pathShape_drops_after_empty (parsedMem lib url) (hd :: pre) post e hpre he
    rw [← h]
    exact pathValue_head_present _ hd (pre ++ e :: post) h0

/-- C9 at `http://h/a//b`, segments `a`, empty, `b`: the path is `/a`; and at
`http://h//a`, segments empty, `a`: the path is the empty string. -/
theorem parse_lua_path_exact_shape_witness :
    (luaL_checklstring [LuaValue.string "http://h/a//b".toList] 1 = some "http://h/a//b".toList ∧
      parse_lua_flag [LuaValue.string "http://h/a//b".toList] = some false ∧
      Parsed libAEmptyB uriBase "http://h/a//b".toList ∧
      QueryOk libAEmptyB uriBase "http://h/a//b".toList false ∧
      ∃ T, parse_lua libAEmptyB uriBase [LuaValue.string "http://h/a//b".toList]
          = some (1, [LuaValue.table T, LuaValue.string "http://h/a//b".toList]) ∧
        field T "path" = LuaValue.string "/a".toList) ∧
    (∃ T, parse_lua libEmptyA uriBase [LuaValue.string "http://h//a".toList]
          = some (1, [LuaValue.table T, LuaValue.string "http://h//a".toList]) ∧
        field T "path" = LuaValue.string []) := by
  refine ⟨⟨rfl, rfl, by decide, by decide, ?_⟩, ?_⟩
  · obtain ⟨T, p, h1, h2, -, h4, -⟩ := parse_lua_path_exact_shape libAEmptyB uriBase
      [LuaValue.string "http://h/a//b".toList] "http://h/a//b".toList false rfl rfl
      (by decide) (by decide)
    refine ⟨T, h1, ?_⟩
    rw [h2, h4 ⟨⟨109, 110⟩⟩ [⟨⟨111, 111⟩⟩, ⟨⟨112, 113⟩⟩] rfl (by decide)]
    rfl
  · obtain ⟨T, p, h1, h2, -, h4, -⟩ := parse_lua_path_exact_shape libEmptyA uriBase
      [LuaValue.string "http://h//a".toList] "http://h//a".toList false rfl rfl
      (by decide) (by decide)
    refine ⟨T, h1, ?_⟩
    rw [h2, h4 ⟨⟨109, 109⟩⟩ [⟨⟨110, 111⟩⟩] rfl (by decide)]
    rfl

theorem ptrdiff_size_of_le (a b : Nat) (hab : b ≤ a) (ha : a < 2 ^ 64) :
    ptrdiff_size a b = a - b := by
  unfold ptrdiff_size
  have h1 : ((a : Int) - (b : Int)) % 2 ^ 64 = ((a - b : Nat) : Int) := by
    rw [Int.emod_eq_of_lt] <;> omega
  rw [h1]
  exact Int.toNat_ofNat _

theorem rangeText_length (mem : Mem) (r : UriTextRangeA) (h : r.first ≤ r.afterLast)
    (hlt : r.afterLast < 2 ^ 64) : (rangeText mem r).length = r.afterLast - r.first := by
  simp [rangeText, readBytes, ptrdiff_size_of_le _ _ h hlt]

theorem pathShape_all_nonEmpty (mem : Mem) (segs : List UriPathSegmentA) (hs : segs ≠ [])
    (hne : ∀ s ∈ segs, s.text.first ≠ s.text.afterLast) :
    pathShape mem segs = (segs.map (fun seg => '/' :: rangeText mem seg.text)).flatten := by
  have htw := takeWhile_nonEmpty_segs segs [] hne (by simp)
  rw [List.append_nil] at htw
  obtain ⟨tail, htail⟩ : ∃ t, segs.getLast? = some t :=
    ⟨segs.getLast hs, List.getLast?_eq_getLast _ hs⟩
  have hmem : tail ∈ segs := List.mem_of_getLast?_eq_some htail
  unfold pathShape
  rw [htw, htail]
  simp [hne tail hmem]

theorem pathShape_trailing_empty (mem : Mem) (segs : List UriPathSegmentA)
    (e : UriPathSegmentA) (hne : ∀ s ∈ segs, s.text.first ≠ s.text.afterLast)
    (he : e.text.first = e.text.afterLast) :
    pathShape mem (segs ++ [e])
      = (segs.map (fun seg => '/' :: rangeText mem seg.text)).flatten ++ ['/'] := by
  rw [pathShape_drops_after_empty mem segs [] e hne he]
  simp [he]

/-- C3: trailing-slash fidelity of the `path` field.  For a non-empty list of
non-empty segments `s1..sn` (each text present, with `first < afterLast`), a
successful `parse` of a URI whose segments are exactly `s1..sn` gives the path
`/s1/.../sn` and nothing after it, and a successful `parse` of a URI whose
segments are `s1..sn` followed by one empty segment gives `/s1/.../sn/`; each
`si` has `afterLast - first` chars. -/
theorem parse_lua_path_trailing_slash (lib : UriLib) (cs : UriBase) (L : LuaState)
    (url : List Char) (parseQry : Bool) (segs : List UriPathSegmentA)
    (hu : luaL_checklstring L 1 = some url) (hf : parse_lua_flag L = some parseQry)
    (hp : Parsed lib cs url) (hq : QueryOk lib cs url parseQry) (hs : segs ≠ [])
    (hne : ∀ s ∈ segs, s.text.first ≠ 0 ∧ s.text.first < s.text.afterLast ∧
      s.text.afterLast < 2 ^ 64) :
    (∀ s ∈ segs, (rangeText (parsedMem lib url) s.text).length
        = s.text.afterLast - s.text.first ∧
      rangeText (parsedMem lib url) s.text ≠ []) ∧
    ((parsedUri lib url).path = segs →
      ∃ T, parse_lua lib cs L = some (1, LuaValue.table T :: L) ∧
        field T "path" = LuaValue.string
          (segs.map (fun seg => '/' :: rangeText (parsedMem lib url) seg.text)).flatten) ∧
    (∀ e : UriPathSegmentA, e.text.first = e.text.afterLast →
      (parsedUri lib url).path = segs ++ [e] →
      ∃ T, parse_lua lib cs L = some (1, LuaValue.table T :: L) ∧
        field T "path" = LuaValue.string
          ((segs.map (fun seg => '/' :: rangeText (parsedMem lib url) seg.text)).flatten
            ++ ['/'])) := by
  have hne' : ∀ s ∈ segs, s.text.first ≠ s.text.afterLast := fun s hs' =>
    Nat.ne_of_lt (hne s hs').2.1
  obtain ⟨hd, tl, hsegs⟩ : ∃ hd tl, segs = hd :: tl := by
    cases segs with
    | nil => exact absurd rfl hs
    | cons hd tl => exact ⟨hd, tl, rfl⟩
  have hhd : hd.text.first ≠ 0 := (hne hd (by simp [hsegs])).1
  refine ⟨?_, ?_, ?_⟩
  · intro s hs'
    have hl := rangeText_length (parsedMem lib url) s.text (Nat.le_of_lt (hne s hs').2.1)
      (hne s hs').2.2
    refine ⟨hl, ?_⟩
    intro hnil
    rw [hnil] at hl
    have := (hne s hs').2.1
    simp only [List.length_nil] at hl
    omega
  · intro hpath
    refine ⟨resultTable lib url parseQry, parse_lua_success lib cs L url parseQry hu hf hp hq, ?_⟩
    rw [field_path_resultTable, hpath, ← pathShape_all_nonEmpty _ segs hs hne']
    subst hsegs
    rw [pathValue_head_present _ hd tl hhd]
  · intro e he hpath
    refine ⟨resultTable lib url parseQry, parse_lua_success lib cs L url parseQry hu hf hp hq, ?_⟩
    rw [field_path_resultTable, hpath, ← pathShape_trailing_empty _ segs e hne' he]
    subst hsegs
    rw [List.cons_append, pathValue_head_present _ hd (tl ++ [e]) hhd]

/-- C3 at its two inputs: `http://h/a` gives the path `/a` and `http://h/a/`
gives `/a/`. -/
theorem parse_lua_path_trailing_slash_witness :
    (luaL_checklstring [LuaValue.string "http://h/a".toList] 1 = some "http://h/a".toList ∧
      parse_lua_flag [LuaValue.string "http://h/a".toList] = some false ∧
      Parsed libA uriBase "http://h/a".toList ∧ QueryOk libA uriBase "http://h/a".toList false ∧
      ∃ T, parse_lua libA uriBase [LuaValue.string "http://h/a".toList]
          = some (1, [LuaValue.table T, LuaValue.string "http://h/a".toList]) ∧
        field T "path" = LuaValue.string "/a".toList) ∧
    (luaL_checklstring [LuaValue.string "http://h/a/".toList] 1 = some "http://h/a/".toList ∧
      parse_lua_flag [LuaValue.string "http://h/a/".toList] = some false ∧
      Parsed libASlash uriBase "http://h/a/".toList ∧
      QueryOk libASlash uriBase "http://h/a/".toList false ∧
      ∃ T, parse_lua libASlash uriBase [LuaValue.string "http://h/a/".toList]
          = some (1, [LuaValue.table T, LuaValue.string "http://h/a/".toList]) ∧
        field T "path" = LuaValue.string "/a/".toList) := by
  have hne : ∀ s ∈ [(⟨⟨109, 110⟩⟩ : UriPathSegmentA)], s.text.first ≠ 0 ∧
      s.text.first < s.text.afterLast ∧ s.text.afterLast < 2 ^ 64 := by
    intro s hs
    simp only [List.mem_singleton] at hs
    subst hs
    decide
  refine ⟨⟨rfl, rfl, by decide, by decide, ?_⟩, ⟨rfl, rfl, by decide, by decide, ?_⟩⟩
  · obtain ⟨T, h1, h2⟩ := (parse_lua_path_trailing_slash libA uriBase
      [LuaValue.string "http://h/a".toList] "http://h/a".toList false [⟨⟨109, 110⟩⟩] rfl rfl
      (by decide) (by decide) (by simp) hne).2.1 rfl
    exact ⟨T, h1, by rw [h2]; rfl⟩
  · obtain ⟨T, h1, h2⟩ := (parse_lua_path_trailing_slash libASlash uriBase
      [LuaValue.string "http://h/a/".toList] "http://h/a/".toList false [⟨⟨109, 110⟩⟩] rfl rfl
      (by decide) (by decide) (by simp) hne).2.2 ⟨⟨111, 111⟩⟩ rfl rfl
    exact ⟨T, h1, by rw [h2]; rfl⟩

/-- C10: the `path` field is present in every successful result of `parse` and
is fixed by the segment list alone, whatever `absolutePath` is: two successful
runs whose URIs have the same segments give the same path, a URI without
segments gives a lone slash, and so does a URI whose only segment is empty. -/
theorem parse_lua_path_ignores_absolutePath (lib lib' : UriLib) (cs cs' : UriBase)
    (L L' : LuaState) (url url' : List Char) (parseQry parseQry' : Bool)
    (hu : luaL_checklstring L 1 = some url) (hf : parse_lua_flag L = some parseQry)
    (hp : Parsed lib cs url) (hq : QueryOk lib cs url parseQry)
    (hu' : luaL_checklstring L' 1 = some url') (hf' : parse_lua_flag L' = some parseQry')
    (hp' : Parsed lib' cs' url') (hq' : QueryOk lib' cs' url' parseQry') :
    ∃ T T' p p', parse_lua lib cs L = some (1, LuaValue.table T :: L) ∧
      parse_lua lib' cs' L' = some (1, LuaValue.table T' :: L') ∧
      field T "path" = LuaValue.string p ∧ field T' "path" = LuaValue.string p' ∧
      (SameSegments (parsedMem lib url) (parsedMem lib' url') (parsedUri lib url).path
          (parsedUri lib' url').path → p = p') ∧
      ((parsedUri lib url).path = [] → p = ['/']) ∧
      (∀ e : UriPathSegmentA, (parsedUri lib url).path = [e] →
          e.text.first = e.text.afterLast → p = ['/']) := by
  refine ⟨resultTable lib url parseQry, resultTable lib' url' parseQry',
    pathValue (parsedMem lib url) (parsedUri lib url).path,
    pathValue (parsedMem lib' url') (parsedUri lib' url').path,
    parse_lua_success lib cs L url parseQry hu hf hp hq,
    parse_lua_success lib' cs' L' url' parseQry' hu' hf' hp' hq',
    field_path_resultTable lib url parseQry, field_path_resultTable lib' url' parseQry',
    pathValue_of_sameSegments _ _ _ _, ?_, ?_⟩
  · intro h
    exact pathValue_head_absent _ _ (Or.inl h)
  · intro e hpath he
    rw [hpath]
    by_cases h0 : e.text.first = 0
    · exact pathValue_head_absent _ _ (Or.inr ⟨e, [], rfl, h0⟩)
    · rw [pathValue_head_present _ e [] h0]
      simp [pathShape, List.takeWhile_cons, segNonEmpty, he]

/-- C10 at the relative reference `a/b` and the absolute path `/a/b`: the flags
differ, the segments are the same, and both paths are `/a/b`. -/
theorem parse_lua_path_ignores_absolutePath_witness :
    luaL_checklstring [LuaValue.string "a/b".toList] 1 = some "a/b".toList ∧
    parse_lua_flag [LuaValue.string "a/b".toList] = some false ∧
    Parsed libRelAB uriBase "a/b".toList ∧ QueryOk libRelAB uriBase "a/b".toList false ∧
    luaL_checklstring [LuaValue.boolean true, LuaValue.string "/a/b".toList] 1
      = some "/a/b".toList ∧
    parse_lua_flag [LuaValue.boolean true, LuaValue.string "/a/b".toList] = some true ∧
    Parsed libAbsAB uriBase "/a/b".toList ∧ QueryOk libAbsAB uriBase "/a/b".toList true ∧
    (parsedUri libRelAB "a/b".toList).absolutePath = false ∧
    (parsedUri libAbsAB "/a/b".toList).absolutePath = true ∧
    ∃ T T', parse_lua libRelAB uriBase [LuaValue.string "a/b".toList]
        = some (1, [LuaValue.table T, LuaValue.string "a/b".toList]) ∧
      parse_lua libAbsAB uriBase [LuaValue.boolean true, LuaValue.string "/a/b".toList]
        = some (1, [LuaValue.table T', LuaValue.boolean true,
            LuaValue.string "/a/b".toList]) ∧
      field T "path" = LuaValue.string "/a/b".toList ∧
      field T' "path" = LuaValue.string "/a/b".toList := by
  refine ⟨rfl, rfl, by decide, by decide, rfl, rfl, by decide, by decide, rfl, rfl, ?_⟩
  obtain ⟨T, T', p, p', h1, h2, h3, h4, h5, -⟩ := parse_lua_path_ignores_absolutePath
    libRelAB libAbsAB uriBase uriBase [LuaValue.string "a/b".toList]
    [LuaValue.boolean true, LuaValue.string "/a/b".toList] "a/b".toList "/a/b".toList
    false true rfl rfl (by decide) (by decide) rfl rfl (by decide) (by decide)
  have hsame : SameSegments (parsedMem libRelAB "a/b".toList) (parsedMem libAbsAB "/a/b".toList)
      (parsedUri libRelAB "a/b".toList).path (parsedUri libAbsAB "/a/b".toList).path :=
    List.Forall₂.cons ⟨rfl, by decide, by decide⟩
      (List.Forall₂.cons ⟨rfl, by decide, by decide⟩ List.Forall₂.nil)
  have hpp := h5 hsame
  have hp' : LuaValue.string p' = LuaValue.string "/a/b".toList := by
    rw [← h4]
    have h2' : parse_lua libAbsAB uriBase
        [LuaValue.boolean true, LuaValue.string "/a/b".toList]
        = some (1, [LuaValue.table (resultTable libAbsAB "/a/b".toList true),
            LuaValue.boolean true, LuaValue.string "/a/b".toList]) := rfl
    rw [h2'] at h2
    simp only [Option.some.injEq, Prod.mk.injEq, List.cons.injEq, LuaValue.table.injEq,
      true_and, and_true] at h2
    rw [← h2]
    rfl
  refine ⟨T, T', h1, h2, ?_, ?_⟩
  · rw [h3, hpp]
    exact hp'
  · rw [h4]
    exact hp'

/-- C4, the code at `http://h/a//b`: the URI has the segments `a`, empty, `b` and
the path `parse` returns is `/a`, not `/a//b`; the segment `b` is dropped. -/
theorem parse_lua_path_drops_segment :
    parse_lua libAEmptyB uriBase [LuaValue.string "http://h/a//b".toList]
      = some (1, [LuaValue.table
          [(LuaValue.string "scheme".toList, LuaValue.string "http".toList),
           (LuaValue.string "host".toList, LuaValue.string "h".toList),
           (LuaValue.string "path".toList, LuaValue.string "/a".toList)],
          LuaValue.string "http://h/a//b".toList]) ∧
    (parsedUri libAEmptyB "http://h/a//b".toList).path.map
        (fun seg => rangeText (parsedMem libAEmptyB "http://h/a//b".toList) seg.text)
      = ["a".toList, [], "b".toList] ∧
    "/a".toList ≠ "/a//b".toList := by
  refine ⟨rfl, rfl, by decide⟩

/-- C5: `parse` is all-or-nothing.  On arguments that pass the checks `parse_lua`
returns one table on top of the untouched arguments when parsing, normalising
and the query block succeed; when parsing or normalising fails it returns `nil`
and the description of that return code, pushed on the untouched arguments; when
the query dissection fails after the components were stored it returns `nil` and
the description of the dissection's code on an otherwise empty stack.  No other
outcome exists, so no table is returned or left on the stack by a failure. -/
theorem parse_lua_all_or_nothing (lib : UriLib) (cs : UriBase) (L : LuaState)
    (url : List Char) (parseQry : Bool) (hu : luaL_checklstring L 1 = some url)
    (hf : parse_lua_flag L = some parseQry) :
    ((lib.uriParseUriExA url).1 ≠ cs.URI_SUCCESS →
      ∃ m, (∀ X, lstate_pusherr cs X (lib.uriParseUriExA url).1 = LuaValue.string m :: X) ∧
        parse_lua lib cs L = some (2, LuaValue.string m :: LuaValue.nil :: L) ∧
        (parse_lua lib cs L).map results = some [LuaValue.nil, LuaValue.string m]) ∧
    ((lib.uriParseUriExA url).1 = cs.URI_SUCCESS → (normalized lib url).1 ≠ cs.URI_SUCCESS →
      ∃ m, (∀ X, lstate_pusherr cs X (normalized lib url).1 = LuaValue.string m :: X) ∧
        parse_lua lib cs L = some (2, LuaValue.string m :: LuaValue.nil :: L) ∧
        (parse_lua lib cs L).map results = some [LuaValue.nil, LuaValue.string m]) ∧
    (Parsed lib cs url → QueryFails lib cs url parseQry →
      ∃ m, (∀ X, lstate_pusherr cs X (lib.uriDissectQueryMallocA (queryText lib url)).1
            = LuaValue.string m :: X) ∧
        parse_lua lib cs L = some (2, [LuaValue.string m, LuaValue.nil]) ∧
        (parse_lua lib cs L).map results = some [LuaValue.nil, LuaValue.string m]) ∧
    (Parsed lib cs url → ¬ QueryFails lib cs url parseQry →
      ∃ T, parse_lua lib cs L = some (1, LuaValue.table T :: L) ∧
        (parse_lua lib cs L).map results = some [LuaValue.table T]) ∧
    ((∃ T, parse_lua lib cs L = some (1, LuaValue.table T :: L)) ∨
      ∃ m, parse_lua lib cs L = some (2, LuaValue.string m :: LuaValue.nil :: L) ∨
        parse_lua lib cs L = some (2, [LuaValue.string m, LuaValue.nil])) := by
  have h := parse_lua_eq lib cs L url parseQry hu hf
  have c1 : (lib.uriParseUriExA url).1 ≠ cs.URI_SUCCESS →
      parse_lua lib cs L = some (2, LuaValue.string (errText cs (lib.uriParseUriExA url).1)
        :: LuaValue.nil :: L) := by
    intro h1
    rw [h, if_pos h1]
  have c2 : (lib.uriParseUriExA url).1 = cs.URI_SUCCESS →
      (normalized lib url).1 ≠ cs.URI_SUCCESS →
      parse_lua lib cs L = some (2, LuaValue.string (errText cs (normalized lib url).1)
        :: LuaValue.nil :: L) := by
    intro h1 h2
    rw [h, if_neg (not_not.2 h1), if_pos h2]
  have c3 : Parsed lib cs url → QueryFails lib cs url parseQry →
      parse_lua lib cs L = some (2, [LuaValue.string
        (errText cs (lib.uriDissectQueryMallocA (queryText lib url)).1), LuaValue.nil]) := by
    intro hp hq
    rw [h, if_neg (not_not.2 hp.1), if_neg (not_not.2 hp.2), if_pos hq]
  have c4 : Parsed lib cs url → ¬ QueryFails lib cs url parseQry →
      parse_lua lib cs L = some (1, LuaValue.table (resultTable lib url parseQry) :: L) := by
    intro hp hq
    rw [h, if_neg (not_not.2 hp.1), if_neg (not_not.2 hp.2), if_neg hq]
  refine ⟨?_, ?_, ?_, ?_, ?_⟩
  · intro h1
    exact ⟨_, fun X => lstate_pusherr_eq cs X _, c1 h1, by rw [c1 h1]; rfl⟩
  · intro h1 h2
    exact ⟨_, fun X => lstate_pusherr_eq cs X _, c2 h1 h2, by rw [c2 h1 h2]; rfl⟩
  · intro hp hq
    exact ⟨_, fun X => lstate_pusherr_eq cs X _, c3 hp hq, by rw [c3 hp hq]; rfl⟩
  · intro hp hq
    exact ⟨_, c4 hp hq, by rw [c4 hp hq]; rfl⟩
  · by_cases h1 : (lib.uriParseUriExA url).1 = cs.URI_SUCCESS
    · by_cases h2 : (normalized lib url).1 = cs.URI_SUCCESS
      · by_cases hq : QueryFails lib cs url parseQry
        · exact Or.inr ⟨_, Or.inr (c3 ⟨h1, h2⟩ hq)⟩
        · exact Or.inl ⟨_, c4 ⟨h1, h2⟩ hq⟩
      · exact Or.inr ⟨_, Or.inl (c2 h1 h2)⟩
    · exact Or.inr ⟨_, Or.inl (c1 h1)⟩

/-- C5 at `parse("http://h/a?x=1#f", true)` with a dissection that fails with
`URI_ERROR_MALLOC`: scheme, host and fragment were stored before, and the call
returns `nil` and the description on a stack that holds nothing else. -/
theorem parse_lua_all_or_nothing_witness :
    luaL_checklstring [LuaValue.boolean true, LuaValue.string "http://h/a?x=1#f".toList] 1
      = some "http://h/a?x=1#f".toList ∧
    parse_lua_flag [LuaValue.boolean true, LuaValue.string "http://h/a?x=1#f".toList]
      = some true ∧
    parse_lua (libQuery 3) uriBase
        [LuaValue.boolean true, LuaValue.string "http://h/a?x=1#f".toList]
      = some (2, [LuaValue.string "Requested memory could not be allocated".toList,
          LuaValue.nil]) := by
  refine ⟨rfl, rfl, ?_⟩
  obtain ⟨m, h1, h2, -⟩ := (parse_lua_all_or_nothing (libQuery 3) uriBase
    [LuaValue.boolean true, LuaValue.string "http://h/a?x=1#f".toList]
    "http://h/a?x=1#f".toList true rfl rfl).2.2.1 (by decide) (by decide)
  have e : lstate_pusherr uriBase []
      ((libQuery 3).uriDissectQueryMallocA (queryText (libQuery 3) "http://h/a?x=1#f".toList)).1
      = [LuaValue.string "Requested memory could not be allocated".toList] := rfl
  rw [h1 []] at e
  simp only [List.cons.injEq, LuaValue.string.injEq, and_true] at e
  rw [h2, e]

theorem field_nil (k : String) : field [] k = LuaValue.nil := rfl

theorem rangeText_of_eq (mem : Mem) (r : UriTextRangeA) (h : r.afterLast = r.first) :
    rangeText mem r = [] := by
  simp [rangeText, readBytes, ptrdiff_size, h]

theorem field_putRange (mem : Mem) (k : String) (r : UriTextRangeA) (T : LuaTable)
    (k' : String) :
    field (putRange mem k r T) k'
      = if r.first ≠ 0 ∧ k.toList = k'.toList then LuaValue.string (rangeText mem r)
        else field T k' := by
  unfold putRange
  by_cases h : r.first = 0
  · simp [h]
  · by_cases hk : k.toList = k'.toList
    · simp [h, hk, field_insert]
    · simp [h, hk, field_insert]

theorem field_queryTable_other (lib : UriLib) (mem : Mem) (uri : UriUriA) (parseQry : Bool)
    (T : LuaTable) (k' : String) (hk : "query".toList ≠ k'.toList) :
    field (queryTable lib mem uri parseQry T) k' = field T k' := by
  unfold queryTable
  split_ifs
  · rw [field_insert, if_neg hk]
  · rw [field_insert, if_neg hk]
  · rfl

theorem field_queryTable_false (lib : UriLib) (mem : Mem) (uri : UriUriA) (T : LuaTable) :
    field (queryTable lib mem uri false T) "query"
      = if uri.query.first ≠ 0 then LuaValue.string (rangeText mem uri.query)
        else field T "query" := by
  unfold queryTable
  split_ifs <;> simp_all [field_insert]

theorem resultTable_fields (lib : UriLib) (url : List Char) (parseQry : Bool) :
    field (resultTable lib url parseQry) "scheme"
      = (if (parsedUri lib url).scheme.first ≠ 0 then
          LuaValue.string (rangeText (parsedMem lib url) (parsedUri lib url).scheme)
        else LuaValue.nil) ∧
    field (resultTable lib url parseQry) "userinfo"
      = (if (parsedUri lib url).userInfo.first ≠ 0 then
          LuaValue.string (rangeText (parsedMem lib url) (parsedUri lib url).userInfo)
        else LuaValue.nil) ∧
    field (resultTable lib url parseQry) "host"
      = (if (parsedUri lib url).hostText.first ≠ 0 then
          LuaValue.string (rangeText (parsedMem lib url) (parsedUri lib url).hostText)
        else LuaValue.nil) ∧
    field (resultTable lib url parseQry) "port"
      = (if (parsedUri lib url).portText.first ≠ 0 then
          LuaValue.string (rangeText (parsedMem lib url) (parsedUri lib url).portText)
        else LuaValue.nil) ∧
    field (resultTable lib url parseQry) "fragment"
      = (if (parsedUri lib url).fragment.first ≠ 0 then
          LuaValue.string (rangeText (parsedMem lib url) (parsedUri lib url).fragment)
        else LuaValue.nil) ∧
    field (resultTable lib url false) "query"
      = (if (parsedUri lib url).query.first ≠ 0 then
          LuaValue.string (rangeText (parsedMem lib url) (parsedUri lib url).query)
        else LuaValue.nil) := by
  have hq (k' : String) (hk : "query".toList ≠ k'.toList) (hp : "path".toList ≠ k'.toList) :
      field (resultTable lib url parseQry) k'
        = field (componentsTable (parsedMem lib url) (parsedUri lib url) []) k' := by
    unfold resultTable
    rw [field_insert, if_neg hp, field_queryTable_other _ _ _ _ _ _ hk]
  refine ⟨?_, ?_, ?_, ?_, ?_, ?_⟩
  · rw [hq "scheme" (by decide) (by decide)]
    simp [componentsTable, field_putRange, field_nil]
  · rw [hq "userinfo" (by decide) (by decide)]
    simp [componentsTable, field_putRange, field_nil]
  · rw [hq "host" (by decide) (by decide)]
    simp [componentsTable, field_putRange, field_nil]
  · rw [hq "port" (by decide) (by decide)]
    simp [componentsTable, field_putRange, field_nil]
  · rw [hq "fragment" (by decide) (by decide)]
    simp [componentsTable, field_putRange, field_nil]
  · unfold resultTable
    rw [field_insert, if_neg (by decide), field_queryTable_false]
    simp [componentsTable, field_putRange, field_nil]

theorem field_range_facts (mem : Mem) (T : LuaTable) (k : String) (r : UriTextRangeA)
    (h : field T k = if r.first ≠ 0 then LuaValue.string (rangeText mem r) else LuaValue.nil) :
    (field T k ≠ LuaValue.nil ↔ r.first ≠ 0) ∧
    (r.first ≠ 0 → field T k = LuaValue.string (rangeText mem r)) ∧
    (r.first ≤ r.afterLast → r.afterLast < 2 ^ 64 →
      (rangeText mem r).length = r.afterLast - r.first) ∧
    (r.first ≠ 0 → r.afterLast = r.first → field T k = LuaValue.string []) := by
  refine ⟨?_, ?_, rangeText_length mem r, ?_⟩
  · by_cases h0 : r.first = 0
    · simp [h, h0]
    · simp [h, h0]
  · intro h0
    rw [h, if_pos h0]
  · intro h0 he
    rw [h, if_pos h0, rangeText_of_eq mem r he]

/-- C7: empty and absent components are not confused.  In the table of a
successful `parse`, each of `scheme`, `userinfo`, `host`, `port`, `fragment`, and
`query` when the query is not dissected, is a field of the table exactly when
the `first` pointer of its range is not `NULL`; the field is then the string of
the chars of the range, `afterLast - first` of them for a range with
`first ≤ afterLast`, so a present range of length zero gives the empty string. -/
theorem parse_lua_component_fields (lib : UriLib) (cs : UriBase) (L : LuaState)
    (url : List Char) (parseQry : Bool) (hu : luaL_checklstring L 1 = some url)
    (hf : parse_lua_flag L = some parseQry) (hp : Parsed lib cs url)
    (hq : QueryOk lib cs url parseQry) :
    ∃ T, parse_lua lib cs L = some (1, LuaValue.table T :: L) ∧
      ∀ kr ∈ ([("scheme", (parsedUri lib url).scheme), ("userinfo", (parsedUri lib url).userInfo),
          ("host", (parsedUri lib url).hostText), ("port", (parsedUri lib url).portText),
          ("fragment", (parsedUri lib url).fragment)] : List (String × UriTextRangeA))
          ++ (if parseQry = false then [("query", (parsedUri lib url).query)] else []),
        (field T kr.1 ≠ LuaValue.nil ↔ kr.2.first ≠ 0) ∧
        (kr.2.first ≠ 0 → field T kr.1 = LuaValue.string (rangeText (parsedMem lib url) kr.2)) ∧
        (kr.2.first ≤ kr.2.afterLast → kr.2.afterLast < 2 ^ 64 →
          (rangeText (parsedMem lib url) kr.2).length = kr.2.afterLast - kr.2.first) ∧
        (kr.2.first ≠ 0 → kr.2.afterLast = kr.2.first → field T kr.1 = LuaValue.string []) := by
  refine ⟨resultTable lib url parseQry, parse_lua_success lib cs L url parseQry hu hf hp hq, ?_⟩
  obtain ⟨f1, f2, f3, f4, f5, f6⟩ := resultTable_fields lib url parseQry
  intro kr hkr
  rw [List.mem_append] at hkr
  rcases hkr with hkr | hkr
  · simp only [List.mem_cons, List.mem_singleton, List.not_mem_nil, or_false] at hkr
    rcases hkr with h | h | h | h | h <;> subst h
    · exact field_range_facts _ _ _ _ f1
    · exact field_range_facts _ _ _ _ f2
    · exact field_range_facts _ _ _ _ f3
    · exact field_range_facts _ _ _ _ f4
    · exact field_range_facts _ _ _ _ f5
  · cases parseQry with
    | true => simp at hkr
    | false =>
      simp only [if_true, List.mem_singleton] at hkr
      subst hkr
      exact field_range_facts _ _ _ _ f6

/-- C7 at `http://h/a?#`: the query and the fragment are present and empty and
are the empty string, the port is absent and is no field. -/
theorem parse_lua_component_fields_witness :
    luaL_checklstring [LuaValue.string "http://h/a?#".toList] 1 = some "http://h/a?#".toList ∧
    parse_lua_flag [LuaValue.string "http://h/a?#".toList] = some false ∧
    Parsed libEmptyQuery uriBase "http://h/a?#".toList ∧
    QueryOk libEmptyQuery uriBase "http://h/a?#".toList false ∧
    ∃ T, parse_lua libEmptyQuery uriBase [LuaValue.string "http://h/a?#".toList]
        = some (1, [LuaValue.table T, LuaValue.string "http://h/a?#".toList]) ∧
      field T "query" = LuaValue.string [] ∧ field T "fragment" = LuaValue.string [] ∧
      ¬ (field T "port" ≠ LuaValue.nil) ∧ field T "scheme" = LuaValue.string "http".toList := by
  refine ⟨rfl, rfl, by decide, by decide, ?_⟩
  obtain ⟨T, h1, h2⟩ := parse_lua_component_fields libEmptyQuery uriBase
    [LuaValue.string "http://h/a?#".toList] "http://h/a?#".toList false rfl rfl
    (by decide) (by decide)
  refine ⟨T, h1, ?_, ?_, ?_, ?_⟩
  · exact (h2 ("query", ⟨111, 111⟩) (by simp; rfl)).2.2.2 (by decide) rfl
  · exact (h2 ("fragment", ⟨112, 112⟩) (by simp; rfl)).2.2.2 (by decide) rfl
  · rw [(h2 ("port", absentRange) (by simp; rfl)).1]
    decide
  · exact (h2 ("scheme", ⟨100, 104⟩) (by simp; rfl)).2.1 (by decide)

/-- C8: the error description is a lookup on the code.  With the case labels of
the `switch` pairwise distinct, `lstate_pusherr` pushes a string that is a
function of the code alone; the codes of syntax error, null input, invalid range,
too large output and not implemented get five pairwise distinct descriptions,
none of them the fallback `Unknwn error`, which is what every code outside the
case labels gets. -/
theorem lstate_pusherr_lookup (cs : UriBase) (h : cs.caseLabels.Nodup) :
    (∃ msg : Int → List Char, ∀ L c, lstate_pusherr cs L c = LuaValue.string (msg c) :: L) ∧
    (∀ L, lstate_pusherr cs L cs.URI_ERROR_SYNTAX
      = LuaValue.string "Parsed text violates expected format".toList :: L) ∧
    (∀ L, lstate_pusherr cs L cs.URI_ERROR_NULL
      = LuaValue.string "One of the params passed was NULL".toList :: L) ∧
    (∀ L, lstate_pusherr cs L cs.URI_ERROR_RANGE_INVALID
      = LuaValue.string "The parameters passed contained invalid ranges".toList :: L) ∧
    (∀ L, lstate_pusherr cs L cs.URI_ERROR_OUTPUT_TOO_LARGE
      = LuaValue.string "Some output is to large for the receiving buffer".toList :: L) ∧
    (∀ L, lstate_pusherr cs L cs.URI_ERROR_NOT_IMPLEMENTED
      = LuaValue.string "The called function is not implemented yet".toList :: L) ∧
    (∀ L c, c ∉ cs.caseLabels →
      lstate_pusherr cs L c = LuaValue.string "Unknwn error".toList :: L) ∧
    ["Parsed text violates expected format".toList, "One of the params passed was NULL".toList,
      "The parameters passed contained invalid ranges".toList,
      "Some output is to large for the receiving buffer".toList,
      "The called function is not implemented yet".toList, "Unknwn error".toList].Nodup := by
  simp only [UriBase.caseLabels, List.nodup_cons, List.mem_cons, List.mem_singleton,
    List.not_mem_nil, or_false, not_or, List.nodup_nil, and_true] at h
  obtain ⟨⟨a1, a2, a3, a4, a5, a6, a7, a8⟩, ⟨b2, b3, b4, b5, b6, b7, b8⟩,
    ⟨c3, c4, c5, c6, c7, c8⟩, ⟨d4, d5, d6, d7, d8⟩, ⟨e5, e6, e7, e8⟩, -⟩ := h
  refine ⟨⟨errText cs, fun L c => lstate_pusherr_eq cs L c⟩, ?_, ?_, ?_, ?_, ?_, ?_, by decide⟩
  · intro L
    rw [lstate_pusherr_eq]
    simp [errText]
  · intro L
    rw [lstate_pusherr_eq]
    simp [errText, Ne.symm a1]
  · intro L
    rw [lstate_pusherr_eq]
    simp [errText, Ne.symm a5, Ne.symm b5, Ne.symm c5, Ne.symm d5, Ne.symm e5]
  · intro L
    rw [lstate_pusherr_eq]
    simp [errText, Ne.symm a3, Ne.symm b3, Ne.symm c3]
  · intro L
    rw [lstate_pusherr_eq]
    simp [errText, Ne.symm a4, Ne.symm b4, Ne.symm c4, Ne.symm d4]
  · intro L c hc
    simp only [UriBase.caseLabels, List.mem_cons, List.mem_singleton, List.not_mem_nil, or_false,
      not_or] at hc
    rw [lstate_pusherr_eq]
    simp [errText, hc]

/-- C8 with the codes of `UriBase.h`: the code 9 gets the description of an
invalid range and the unused code 10 gets the fallback. -/
theorem lstate_pusherr_lookup_witness :
    uriBase.caseLabels.Nodup ∧
    lstate_pusherr uriBase [] 9
      = [LuaValue.string "The parameters passed contained invalid ranges".toList] ∧
    lstate_pusherr uriBase [] 10 = [LuaValue.string "Unknwn error".toList] := by
  have h : uriBase.caseLabels.Nodup := by decide
  exact ⟨h, (lstate_pusherr_lookup uriBase h).2.2.2.1 [],
    (lstate_pusherr_lookup uriBase h).2.2.2.2.2.2.1 [] 10 (by decide)⟩

theorem rawequal_string_left (a : List Char) (k : LuaValue) :
    lua_rawequal (LuaValue.string a) k = true ↔ k = LuaValue.string a := by
  cases k with
  | nil => simp [lua_rawequal]
  | boolean b => simp [lua_rawequal]
  | string s =>
    simp only [lua_rawequal, beq_iff_eq, LuaValue.string.injEq]
    exact eq_comm
  | table t => simp [lua_rawequal]

theorem tbl_rawget_insert_ne (T : LuaTable) (a : List Char) (v k : LuaValue)
    (hk : k ≠ LuaValue.string a) :
    tbl_rawget (tbl_insert T (LuaValue.string a) v) k = tbl_rawget T k := by
  have hra : ¬ lua_rawequal (LuaValue.string a) k = true := fun h =>
    hk ((rawequal_string_left a k).1 h)
  induction T with
  | nil => simp [tbl_insert, tbl_rawget, hra]
  | cons e T ih =>
    by_cases h : lua_rawequal e.1 (LuaValue.string a) = true
    · have he := (rawequal_string_iff _ _).1 h
      rw [tbl_insert, if_pos h]
      simp [tbl_rawget, he, hra]
    · simp [tbl_insert, tbl_rawget, h, ih]

theorem resultTable_other_fields (lib : UriLib) (url : List Char) (k : LuaValue)
    (hk : k ≠ LuaValue.string "query".toList) :
    tbl_rawget (resultTable lib url true) k = tbl_rawget (resultTable lib url false) k := by
  have hq (b : Bool) : tbl_rawget (queryTable lib (parsedMem lib url) (parsedUri lib url) b
      (componentsTable (parsedMem lib url) (parsedUri lib url) [])) k
      = tbl_rawget (componentsTable (parsedMem lib url) (parsedUri lib url) []) k := by
    unfold queryTable
    split_ifs
    · exact tbl_rawget_insert_ne _ _ _ _ hk
    · exact tbl_rawget_insert_ne _ _ _ _ hk
    · rfl
  unfold resultTable
  by_cases hp : k = LuaValue.string "path".toList
  · subst hp
    rw [tbl_rawget_insert, tbl_rawget_insert, if_pos rfl, if_pos rfl]
  · rw [tbl_rawget_insert_ne _ _ _ _ hp, tbl_rawget_insert_ne _ _ _ _ hp, hq true, hq false]

theorem resultTable_no_query (lib : UriLib) (url : List Char) (b : Bool)
    (h0 : (parsedUri lib url).query.first = 0) :
    resultTable lib url b = resultTable lib url false := by
  simp [resultTable, queryTable, h0]

theorem field_query_resultTable_true (lib : UriLib) (url : List Char)
    (h0 : (parsedUri lib url).query.first ≠ 0) :
    field (resultTable lib url true) "query"
      = LuaValue.table (queryFold [] (lib.uriDissectQueryMallocA (queryText lib url)).2) := by
  unfold resultTable
  rw [field_insert, if_neg (by decide)]
  unfold queryTable queryText
  rw [if_pos h0, if_pos rfl, field_insert, if_pos rfl]

/-- C6: `parse(u, true)` agrees with `parseQuery` on the query of `u`.  For a URI
that parses and normalises, `parse(u, false)` succeeds; when `u` has a query,
its `query` field is the query slice `q` as a string, `parseQuery(q)` returns
either a table or `nil` and a message, in the first case `parse(u, true)`
succeeds with that table as `query` and every other key as in `parse(u, false)`,
in the second `parse(u, true)` returns `nil` and the same message; when `u` has
no query both flags give the same table. -/
theorem parse_lua_query_agrees_with_parse_query_lua (lib : UriLib) (cs : UriBase)
    (Lf Lt Lq : LuaState) (url : List Char)
    (huf : luaL_checklstring Lf 1 = some url) (hff : parse_lua_flag Lf = some false)
    (hut : luaL_checklstring Lt 1 = some url) (hft : parse_lua_flag Lt = some true)
    (huq : luaL_checklstring Lq 1 = some (queryText lib url)) (hp : Parsed lib cs url) :
    ∃ Tf, parse_lua lib cs Lf = some (1, LuaValue.table Tf :: Lf) ∧
      ((parsedUri lib url).query.first ≠ 0 →
        field Tf "query" = LuaValue.string (queryText lib url) ∧
        ((∃ t, parse_query_lua lib cs Lq = some (1, LuaValue.table t :: Lq)) ∨
          ∃ m, parse_query_lua lib cs Lq
            = some (2, LuaValue.string m :: LuaValue.nil :: Lq)) ∧
        (∀ t, parse_query_lua lib cs Lq = some (1, LuaValue.table t :: Lq) →
          ∃ Tt, parse_lua lib cs Lt = some (1, LuaValue.table Tt :: Lt) ∧
            field Tt "query" = LuaValue.table t ∧
            ∀ k : LuaValue, k ≠ LuaValue.string "query".toList →
              tbl_rawget Tt k = tbl_rawget Tf k) ∧
        (∀ m, parse_query_lua lib cs Lq = some (2, LuaValue.string m :: LuaValue.nil :: Lq) →
          parse_lua lib cs Lt = some (2, [LuaValue.string m, LuaValue.nil]) ∧
          (parse_lua lib cs Lt).map results = some [LuaValue.nil, LuaValue.string m] ∧
          (parse_query_lua lib cs Lq).map results
            = some [LuaValue.nil, LuaValue.string m])) ∧
      ((parsedUri lib url).query.first = 0 →
        parse_lua lib cs Lt = some (1, LuaValue.table Tf :: Lt)) := by
  have hpq := parse_query_lua_eq lib cs Lq (queryText lib url) huq
  have hpt := parse_lua_eq lib cs Lt url true hut hft
  rw [if_neg (not_not.2 hp.1), if_neg (not_not.2 hp.2)] at hpt
  refine ⟨resultTable lib url false,
    parse_lua_success lib cs Lf url false huf hff hp (Or.inr (Or.inl rfl)), ?_, ?_⟩
  · intro h0
    refine ⟨?_, ?_, ?_, ?_⟩
    · rw [(resultTable_fields lib url false).2.2.2.2.2, if_pos h0]
      rfl
    · by_cases hd : (lib.uriDissectQueryMallocA (queryText lib url)).1 = cs.URI_SUCCESS
      · exact Or.inl ⟨_, by rw [hpq, if_pos hd]⟩
      · exact Or.inr ⟨_, by rw [hpq, if_neg hd]⟩
    · intro t ht
      by_cases hd : (lib.uriDissectQueryMallocA (queryText lib url)).1 = cs.URI_SUCCESS
      · rw [hpq, if_pos hd] at ht
        simp only [Option.some.injEq, Prod.mk.injEq, List.cons.injEq, LuaValue.table.injEq,
          true_and, and_true] at ht
        have hnf : ¬ QueryFails lib cs url true := fun hqf => hqf.2.2 hd
        rw [if_neg hnf] at hpt
        refine ⟨resultTable lib url true, hpt, ?_, resultTable_other_fields lib url⟩
        rw [field_query_resultTable_true lib url h0, ht]
      · rw [hpq, if_neg hd] at ht
        simp at ht
    · intro m hm
      by_cases hd : (lib.uriDissectQueryMallocA (queryText lib url)).1 = cs.URI_SUCCESS
      · rw [hpq, if_pos hd] at hm
        simp at hm
      · have hm' := hm
        rw [hpq, if_neg hd] at hm'
        simp only [Option.some.injEq, Prod.mk.injEq, List.cons.injEq, LuaValue.string.injEq,
          true_and, and_true] at hm'
        have hqf : QueryFails lib cs url true := ⟨h0, rfl, hd⟩
        rw [if_pos hqf, hm'] at hpt
        refine ⟨hpt, ?_, ?_⟩
        · rw [hpt]
          rfl
        · rw [hm]
          rfl
  · intro h0
    have hnf : ¬ QueryFails lib cs url true := fun hqf => hqf.1 h0
    rw [if_neg hnf, resultTable_no_query lib url true h0] at hpt
    exact hpt

/-- C6 at `http://h/a?x=1#f`: `parse(u, false)` has the query `"x=1"`, and
`parseQuery("x=1")` and the `query` of `parse(u, true)` are the same table
`x -> "1"`. -/
theorem parse_lua_query_agrees_with_parse_query_lua_witness :
    luaL_checklstring [LuaValue.boolean false, LuaValue.string "http://h/a?x=1#f".toList] 1
      = some "http://h/a?x=1#f".toList ∧
    parse_lua_flag [LuaValue.boolean false, LuaValue.string "http://h/a?x=1#f".toList]
      = some false ∧
    luaL_checklstring [LuaValue.boolean true, LuaValue.string "http://h/a?x=1#f".toList] 1
      = some "http://h/a?x=1#f".toList ∧
    parse_lua_flag [LuaValue.boolean true, LuaValue.string "http://h/a?x=1#f".toList]
      = some true ∧
    luaL_checklstring [LuaValue.string "x=1".toList] 1
      = some (queryText (libQuery 0) "http://h/a?x=1#f".toList) ∧
    Parsed (libQuery 0) uriBase "http://h/a?x=1#f".toList ∧
    parse_query_lua (libQuery 0) uriBase [LuaValue.string "x=1".toList]
      = some (1, [LuaValue.table [(LuaValue.string "x".toList, LuaValue.string "1".toList)],
          LuaValue.string "x=1".toList]) ∧
    ∃ Tf Tt, parse_lua (libQuery 0) uriBase
        [LuaValue.boolean false, LuaValue.string "http://h/a?x=1#f".toList]
        = some (1, [LuaValue.table Tf, LuaValue.boolean false,
            LuaValue.string "http://h/a?x=1#f".toList]) ∧
      field Tf "query" = LuaValue.string "x=1".toList ∧
      parse_lua (libQuery 0) uriBase
        [LuaValue.boolean true, LuaValue.string "http://h/a?x=1#f".toList]
        = some (1, [LuaValue.table Tt, LuaValue.boolean true,
            LuaValue.string "http://h/a?x=1#f".toList]) ∧
      field Tt "query"
        = LuaValue.table [(LuaValue.string "x".toList, LuaValue.string "1".toList)] ∧
      field Tt "fragment" = field Tf "fragment" := by
  refine ⟨rfl, rfl, rfl, rfl, rfl, by decide, rfl, ?_⟩
  obtain ⟨Tf, h1, h2, -⟩ := parse_lua_query_agrees_with_parse_query_lua (libQuery 0) uriBase
    [LuaValue.boolean false, LuaValue.string "http://h/a?x=1#f".toList]
    [LuaValue.boolean true, LuaValue.string "http://h/a?x=1#f".toList]
    [LuaValue.string "x=1".toList] "http://h/a?x=1#f".toList rfl rfl rfl rfl rfl (by decide)
  obtain ⟨h3, -, h4, -⟩ := h2 (by decide)
  obtain ⟨Tt, h5, h6, h7⟩ := h4 [(LuaValue.string "x".toList, LuaValue.string "1".toList)] rfl
  refine ⟨Tf, Tt, h1, ?_, h5, h6, ?_⟩
  · rw [h3]
    rfl
  · exact h7 (LuaValue.string "fragment".toList) (by
      intro h
      simp only [LuaValue.string.injEq] at h
      exact absurd h (by decide))

theorem tbl_insert_keys (T : LuaTable) (K : List (List Char))
    (hK : T.map Prod.fst = K.map LuaValue.string) (a : List Char) (v : LuaValue) :
    (tbl_insert T (LuaValue.string a) v).map Prod.fst
      = (if a ∈ K then K else K ++ [a]).map LuaValue.string := by
  induction T generalizing K with
  | nil =>
    cases K with
    | nil => simp [tbl_insert]
    | cons k0 K => simp at hK
  | cons e T ih =>
    cases K with
    | nil => simp at hK
    | cons k0 K =>
      simp only [List.map_cons, List.cons.injEq] at hK
      obtain ⟨he, hT⟩ := hK
      by_cases hka : k0 = a
      · have hr : lua_rawequal e.1 (LuaValue.string a) = true := by
          rw [he, hka]
          simp [lua_rawequal]
        rw [tbl_insert, if_pos hr]
        simp [hka, he, hT]
      · have hr : ¬ lua_rawequal e.1 (LuaValue.string a) = true := by
          rw [he]
          simp [lua_rawequal, hka]
        rw [tbl_insert, if_neg hr]
        have hmem : a ∈ k0 :: K ↔ a ∈ K := by
          simp [Ne.symm hka]
        by_cases hin : a ∈ K
        · simp [ih K hT, hin, he]
        · simp [ih K hT, hin, he, Ne.symm hka]

theorem queryFold_keys (qry : List UriQueryListA) (T : LuaTable) (K : List (List Char))
    (hK : T.map Prod.fst = K.map LuaValue.string) (hnd : K.Nodup) :
    ∃ K' : List (List Char), (queryFold T qry).map Prod.fst = K'.map LuaValue.string ∧
      K'.Nodup ∧ ∀ k, k ∈ K' ↔ k ∈ K ∨ k ∈ queryKeys qry := by
  induction qry generalizing T K with
  | nil => exact ⟨K, hK, hnd, by simp [queryKeys]⟩
  | cons ptr next ih =>
    obtain ⟨key, value⟩ := ptr
    cases key with
    | none =>
      obtain ⟨K', h1, h2, h3⟩ := ih T K hK hnd
      exact ⟨K', by simpa [queryFold] using h1, h2, by simpa [queryKeys] using h3⟩
    | some kb =>
      have hins := tbl_insert_keys T K hK (cstr kb) (LuaValue.string (cstr (value.getD [])))
      have hnd' : (if cstr kb ∈ K then K else K ++ [cstr kb]).Nodup := by
        by_cases hin : cstr kb ∈ K
        · simpa [hin] using hnd
        · simp only [hin, if_false]
          exact List.Nodup.append hnd (List.nodup_singleton _) (by simpa using hin)
      obtain ⟨K', h1, h2, h3⟩ := ih _ _ hins hnd'
      refine ⟨K', by simpa [queryFold] using h1, h2, ?_⟩
      intro k
      rw [h3 k]
      by_cases hin : cstr kb ∈ K
      · simp only [hin, if_true, queryKeys, List.filterMap_cons, Option.map_some', List.mem_cons]
        constructor
        · rintro (h | h)
          · exact Or.inl h
          · exact Or.inr (Or.inr h)
        · rintro (h | h | h)
          · exact Or.inl h
          · exact Or.inl (h ▸ hin)
          · exact Or.inr h
      · simp only [hin, if_false, queryKeys, List.filterMap_cons, Option.map_some',
          List.mem_cons, List.mem_append, List.mem_singleton]
        tauto

theorem queryFold_rawget (qry : List UriQueryListA) (T : LuaTable) (k : List Char) :
    tbl_rawget (queryFold T qry) (LuaValue.string k)
      = match lastPair qry k with
        | some ptr => LuaValue.string (cstr (ptr.value.getD []))
        | none => tbl_rawget T (LuaValue.string k) := by
  induction qry generalizing T with
  | nil => rfl
  | cons ptr next ih =>
    obtain ⟨key, value⟩ := ptr
    cases key with
    | none =>
      have hl : lastPair (⟨none, value⟩ :: next) k = lastPair next k := by
        simp [lastPair, List.filter_cons]
      rw [hl]
      simpa [queryFold] using ih T
    | some kb =>
      have hf : queryFold T (⟨some kb, value⟩ :: next)
          = queryFold (tbl_insert T (LuaValue.string (cstr kb))
              (LuaValue.string (cstr (value.getD [])))) next := rfl
      rw [hf, ih]
      by_cases hk : cstr kb = k
      · have hl : lastPair (⟨some kb, value⟩ :: next) k
            = match lastPair next k with
              | some q => some q
              | none => some ⟨some kb, value⟩ := by
          simp only [lastPair, List.filter_cons, Option.map_some', hk, decide_True, if_true]
          cases hx : (next.filter
            (fun ptr => decide (ptr.key.map cstr = some k))) with
          | nil => simp
          | cons q qs =>
            simp only [List.getLast?_cons_cons]
            cases hy : (q :: qs).getLast? with
            | none => simp at hy
            | some y => rfl
        rw [hl]
        cases lastPair next k with
        | none => simp [tbl_rawget_insert, hk]
        | some q => rfl
      · have hl : lastPair (⟨some kb, value⟩ :: next) k = lastPair next k := by
          simp [lastPair, List.filter_cons, hk]
        rw [hl, tbl_rawget_insert, if_neg hk]

theorem lastPair_isSome_iff (qry : List UriQueryListA) (k : List Char) :
    (lastPair qry k).isSome ↔ k ∈ queryKeys qry := by
  unfold lastPair queryKeys
  rw [List.mem_filterMap]
  constructor
  · intro h
    obtain ⟨p, hp⟩ := Option.isSome_iff_exists.1 h
    have hm := List.mem_of_getLast?_eq_some hp
    rw [List.mem_filter] at hm
    exact ⟨p, hm.1, by simpa using hm.2⟩
  · rintro ⟨p, hp, hpk⟩
    have hm : p ∈ qry.filter (fun ptr => decide (ptr.key.map cstr = some k)) := by
      rw [List.mem_filter]
      exact ⟨hp, by simpa using hpk⟩
    cases hx : (qry.filter (fun ptr => decide (ptr.key.map cstr = some k))).getLast? with
    | none =>
      rw [List.getLast?_eq_none_iff] at hx
      rw [hx] at hm
      simp at hm
    | some q => rfl

/-- The table `parse_query_lua` returns when the dissection succeeds. -/
theorem parse_query_lua_success (lib : UriLib) (cs : UriBase) (L : LuaState) (str : List Char)
    (hu : luaL_checklstring L 1 = some str)
    (hd : (lib.uriDissectQueryMallocA str).1 = cs.URI_SUCCESS) :
    parse_query_lua lib cs L
      = some (1, LuaValue.table (queryFold [] (lib.uriDissectQueryMallocA str).2) :: L) := by
  rw [parse_query_lua_eq lib cs L str hu, if_pos hd]

theorem queryKeys_length (qry : List UriQueryListA) :
    (qry.filter (fun ptr => ptr.key.isSome)).length = (queryKeys qry).length := by
  unfold queryKeys
  induction qry with
  | nil => rfl
  | cons ptr next ih =>
    obtain ⟨key, value⟩ := ptr
    cases key with
    | none => simpa [List.filter_cons] using ih
    | some kb => simpa [List.filter_cons] using ih

/-- C1 as stated fails at `parseQuery("a=1&a=2")`: the library hands over two
pairs with a key, and the returned table has the one entry `a -> "2"`. -/
theorem parse_query_lua_duplicate_key_counterexample :
    ¬ (∀ T rest, parse_query_lua libDup uriBase [LuaValue.string "a=1&a=2".toList]
          = some (1, LuaValue.table T :: rest) →
        T.length = ((libDup.uriDissectQueryMallocA "a=1&a=2".toList).2.filter
          (fun ptr => ptr.key.isSome)).length) := by
  intro h
  have h1 := h [(LuaValue.string "a".toList, LuaValue.string "2".toList)]
    [LuaValue.string "a=1&a=2".toList] rfl
  revert h1
  decide

/-- C1 as amended: when the dissection succeeds `parseQuery` returns a table with
one entry per distinct key.  Its keys are pairwise distinct, a key is in the table
exactly when a pair has it (as a C string) and holds the value of the last pair
with that key, so a repeated key is overwritten; the number of entries is the
number of distinct keys of the pairs with a non-null key, and it is the number
of those pairs exactly when no key is repeated. -/
theorem parse_query_lua_one_entry_per_key (lib : UriLib) (cs : UriBase) (L : LuaState)
    (str : List Char) (hu : luaL_checklstring L 1 = some str)
    (hd : (lib.uriDissectQueryMallocA str).1 = cs.URI_SUCCESS) :
    ∃ T, parse_query_lua lib cs L = some (1, LuaValue.table T :: L) ∧
      (T.map Prod.fst).Nodup ∧
      (∀ k, tbl_rawget T (LuaValue.string k) ≠ LuaValue.nil
        ↔ k ∈ queryKeys (lib.uriDissectQueryMallocA str).2) ∧
      (∀ k ptr, lastPair (lib.uriDissectQueryMallocA str).2 k = some ptr →
        tbl_rawget T (LuaValue.string k) = LuaValue.string (cstr (ptr.value.getD []))) ∧
      T.length = (queryKeys (lib.uriDissectQueryMallocA str).2).dedup.length ∧
      (T.length = ((lib.uriDissectQueryMallocA str).2.filter
          (fun ptr => ptr.key.isSome)).length
        ↔ (queryKeys (lib.uriDissectQueryMallocA str).2).Nodup) := by
  refine ⟨queryFold [] (lib.uriDissectQueryMallocA str).2,
    parse_query_lua_success lib cs L str hu hd, ?_⟩
  generalize (lib.uriDissectQueryMallocA str).2 = qry
  obtain ⟨K, hK, hnd, hmem⟩ := queryFold_keys qry [] [] rfl List.nodup_nil
  have hlen : (queryFold [] qry).length = (queryKeys qry).dedup.length := by
    have h1 : (queryFold [] qry).length = K.length := by
      have := congrArg List.length hK
      simpa using this
    have hperm : K.Perm (queryKeys qry).dedup := by
      rw [List.perm_ext_iff_of_nodup hnd (List.nodup_dedup _)]
      intro k
      rw [hmem k, List.mem_dedup]
      simp
    rw [h1, hperm.length_eq]
  have hcount := queryKeys_length qry
  refine ⟨?_, ?_, ?_, hlen, ?_⟩
  · rw [hK]
    exact hnd.map (fun a b hab => by simpa using hab)
  · intro k
    rw [queryFold_rawget, ← lastPair_isSome_iff]
    cases lastPair qry k with
    | none => simp [tbl_rawget]
    | some p => simp
  · intro k ptr hl
    rw [queryFold_rawget, hl]
  · rw [hlen, hcount]
    constructor
    · intro h
      have hs : (queryKeys qry).dedup = queryKeys qry :=
        (List.dedup_sublist _).eq_of_length h
      rw [← hs]
      exact List.nodup_dedup _
    · intro h
      rw [h.dedup]

/-- C1 as amended at `parseQuery("a=1&a=2")`: one entry for the one key, with the
value of the second pair. -/
theorem parse_query_lua_one_entry_per_key_witness :
    luaL_checklstring [LuaValue.string "a=1&a=2".toList] 1 = some "a=1&a=2".toList ∧
    (libDup.uriDissectQueryMallocA "a=1&a=2".toList).1 = uriBase.URI_SUCCESS ∧
    ∃ T, parse_query_lua libDup uriBase [LuaValue.string "a=1&a=2".toList]
        = some (1, [LuaValue.table T, LuaValue.string "a=1&a=2".toList]) ∧
      T.length = 1 ∧ tbl_rawget T (LuaValue.string "a".toList) = LuaValue.string "2".toList := by
  refine ⟨rfl, rfl, ?_⟩
  obtain ⟨T, h1, -, -, h2, h3, -⟩ := parse_query_lua_one_entry_per_key libDup uriBase
    [LuaValue.string "a=1&a=2".toList] "a=1&a=2".toList rfl rfl
  refine ⟨T, h1, ?_, ?_⟩
  · rw [h3]
    decide
  · exact h2 "a".toList ⟨some "a".toList, some "2".toList⟩ rfl

/-- C2 as stated fails at `parseQuery("a=1&b=&c")`: the pair `c` has a `NULL`
value and the table holds the empty string for it, as it does for `b`; the
field is not absent. -/
theorem parse_query_lua_null_value_counterexample :
    ¬ (∀ T rest, parse_query_lua libMixed uriBase [LuaValue.string "a=1&b=&c".toList]
          = some (1, LuaValue.table T :: rest) →
        tbl_rawget T (LuaValue.string "b".toList) = LuaValue.string [] ∧
        tbl_rawget T (LuaValue.string "c".toList) = LuaValue.nil) := by
  intro h
  have h1 := (h [(LuaValue.string "a".toList, LuaValue.string "1".toList),
      (LuaValue.string "b".toList, LuaValue.string []),
      (LuaValue.string "c".toList, LuaValue.string [])]
    [LuaValue.string "a=1&b=&c".toList] rfl).2
  have h2 : tbl_rawget [(LuaValue.string "a".toList, LuaValue.string "1".toList),
      (LuaValue.string "b".toList, LuaValue.string []),
      (LuaValue.string "c".toList, LuaValue.string [])] (LuaValue.string "c".toList)
      = LuaValue.string [] := rfl
  rw [h2] at h1
  cases h1

/-- C2 as amended: when the dissection succeeds, the table `parseQuery` returns
holds under each key the value of the last pair with that key: the chars of the
value when the library value is not `NULL`, and the empty string when it is
`NULL`, the same string a pair `key=` gives.  A key no pair has is absent. -/
theorem parse_query_lua_values (lib : UriLib) (cs : UriBase) (L : LuaState)
    (str : List Char) (hu : luaL_checklstring L 1 = some str)
    (hd : (lib.uriDissectQueryMallocA str).1 = cs.URI_SUCCESS) :
    ∃ T, parse_query_lua lib cs L = some (1, LuaValue.table T :: L) ∧
      ∀ k, tbl_rawget T (LuaValue.string k)
        = match lastPair (lib.uriDissectQueryMallocA str).2 k with
          | none => LuaValue.nil
          | some ptr =>
            match ptr.value with
            | some v => LuaValue.string (cstr v)
            | none => LuaValue.string [] := by
  refine ⟨queryFold [] (lib.uriDissectQueryMallocA str).2,
    parse_query_lua_success lib cs L str hu hd, ?_⟩
  intro k
  rw [queryFold_rawget]
  cases lastPair (lib.uriDissectQueryMallocA str).2 k with
  | none => rfl
  | some ptr =>
    obtain ⟨key, value⟩ := ptr
    cases value with
    | none => rfl
    | some v => rfl

/-- C2 as amended at `parseQuery("a=1&b=&c")`: `a -> "1"`, `b -> ""`, `c -> ""`. -/
theorem parse_query_lua_values_witness :
    luaL_checklstring [LuaValue.string "a=1&b=&c".toList] 1 = some "a=1&b=&c".toList ∧
    (libMixed.uriDissectQueryMallocA "a=1&b=&c".toList).1 = uriBase.URI_SUCCESS ∧
    ∃ T, parse_query_lua libMixed uriBase [LuaValue.string "a=1&b=&c".toList]
        = some (1, [LuaValue.table T, LuaValue.string "a=1&b=&c".toList]) ∧
      tbl_rawget T (LuaValue.string "a".toList) = LuaValue.string "1".toList ∧
      tbl_rawget T (LuaValue.string "b".toList) = LuaValue.string [] ∧
      tbl_rawget T (LuaValue.string "c".toList) = LuaValue.string [] ∧
      tbl_rawget T (LuaValue.string "d".toList) = LuaValue.nil := by
  refine ⟨rfl, rfl, ?_⟩
  obtain ⟨T, h1, h2⟩ := parse_query_lua_values libMixed uriBase
    [LuaValue.string "a=1&b=&c".toList] "a=1&b=&c".toList rfl rfl
  refine ⟨T, h1, ?_, ?_, ?_, ?_⟩
  · rw [h2]
    rfl
  · rw [h2]
    rfl
  · rw [h2]
    rfl
  · rw [h2]
    rfl

end LuaUriParser
